import Mathlib

/- Shallow embedding of the email-automation backend (src/backend of the
email-automation-system repository): the pydantic models, the LLM client
wrapper (llm_client.py), the processed-email table (db_updated.py), user
registration (auth.py), the in-memory pending-response store with its
approval operations (main_api.py), and the LangGraph human-in-the-loop
workflow (langgraph_workflow.py).  External collaborators (the LLM
completion API, the Gmail API, json parsing, bcrypt) are modelled as
oracle parameters; everything else follows the Python source. -/

namespace EmailAutomation

/- ===== models.py : pydantic models (Literal fields become inductives) ===== -/

inductive Category where | work | personal | marketing | support | urgent | unknown
deriving DecidableEq, Repr

inductive Sentiment where | positive | neutral | negative
deriving DecidableEq, Repr

inductive EAction where | respond | skip
deriving DecidableEq, Repr

inductive Tone where | formal | casual | friendly
deriving DecidableEq, Repr

def Category.toStr : Category → String
  | .work => "work"
  | .personal => "personal"
  | .marketing => "marketing"
  | .support => "support"
  | .urgent => "urgent"
  | .unknown => "unknown"

def Sentiment.toStr : Sentiment → String
  | .positive => "positive"
  | .neutral => "neutral"
  | .negative => "negative"

def Tone.toStr : Tone → String
  | .formal => "formal"
  | .casual => "casual"
  | .friendly => "friendly"

structure EmailAnalysis where
  category : Category
  priority : Int
  requires_response : Bool
  sentiment : Sentiment
  key_points : List String
  suggested_action : String
deriving DecidableEq, Repr

structure EmailDecision where
  action : EAction
  reasoning : String
deriving DecidableEq, Repr

structure EmailResponse where
  response_body : String
  tone : Tone
  confidence : ℚ
deriving DecidableEq, Repr

/- ===== llm_client.py : LLMClient ===== -/

/- The prompt variables that `LLMClient.decide_action` passes to
`chain.invoke` (llm_client.py lines 92-101); `format_instructions` is a
constant and omitted.  `key_points` is the ", "-join of the list. -/
structure DecidePromptInput where
  subject : String
  sender : String
  category : Category
  priority : Int
  requires_response : Bool
  sentiment : Sentiment
  key_points : String
deriving DecidableEq, Repr

/- `LLMClient.decide_action` (llm_client.py lines 59-103): it builds the
prompt input from the analysis plus subject and sender and returns
whatever the LLM chain produces (an oracle here; `.error` models the
chain raising). -/
def decide_action (oracle : DecidePromptInput → Except String EmailDecision)
    (analysis : EmailAnalysis) (subject sender : String) :
    Except String EmailDecision :=
  oracle
    { subject := subject
      sender := sender
      category := analysis.category
      priority := analysis.priority
      requires_response := analysis.requires_response
      sentiment := analysis.sentiment
      key_points := String.intercalate ", " analysis.key_points }

/- Minimal JSON value universe for what `json.loads` can return. -/
inductive Json where
  | str : String → Json
  | num : ℚ → Json
  | boolean : Bool → Json
  | null : Json
  | arr : List Json → Json
  | obj : List (String × Json) → Json

def lbrace : Char := Char.ofNat 123

def rbrace : Char := Char.ofNat 125

/- `re.search` of a brace-delimited block (llm_client.py line 182): the
regex matches from the first opening brace that has some closing brace
strictly after it, greedily up to the last closing brace. -/
def extractJsonCandidate (text : String) : Option String :=
  let cs := text.toList
  let rIdxs := (cs.enum.filter (fun p => p.2 = rbrace)).map Prod.fst
  match rIdxs.getLast?, cs.findIdx? (fun c => c = lbrace) with
  | some jlast, some i0 =>
      if i0 < jlast then some (String.mk ((cs.take (jlast + 1)).drop i0)) else none
  | _, _ => none

def jsonLookup (fields : List (String × Json)) (k : String) : Option Json :=
  (fields.find? (fun p => decide (p.1 = k))).map Prod.snd

def parseTone : String → Option Tone
  | "formal" => some .formal
  | "casual" => some .casual
  | "friendly" => some .friendly
  | _ => none

/- Pydantic validation of `EmailResponse(**parsed_data)` (models.py lines
21-25): string body, tone one of the three literals, confidence in
the closed interval from 0 to 1. -/
def validateEmailResponse (j : Json) : Option EmailResponse :=
  match j with
  | .obj fields =>
      match jsonLookup fields "response_body", jsonLookup fields "tone",
            jsonLookup fields "confidence" with
      | some (.str b), some (.str t), some (.num c) =>
          match parseTone t with
          | some tone => if 0 ≤ c ∧ c ≤ 1 then some ⟨b, tone, c⟩ else none
          | none => none
      | _, _, _ => none
  | _ => none

/- Oracles for the external LLM chain and for `json.loads`. -/
structure GenEnv where
  llm : String → String → String → EmailAnalysis → Except String String
  jsonLoads : String → Except String Json

/- Fallback response built at llm_client.py lines 207-211. -/
def fallbackResponse (subject : String) : EmailResponse :=
  { response_body :=
      "Thank you for your email regarding: " ++ subject ++
      "\n\nI have received your message and will respond shortly.\n\nBest regards"
    tone := .formal
    confidence := 1/2 }

/- Method 2 of the JSON extraction (llm_client.py lines 192-197): parse
the whole text; a decode failure passes, a pydantic validation failure
escapes to the outer handler; both end at the fallback. -/
def genMethod2 (env : GenEnv) (response_text subject : String) : EmailResponse :=
  match env.jsonLoads response_text with
  | .ok data =>
      match validateEmailResponse data with
      | some r => r
      | none => fallbackResponse subject
  | .error _ => fallbackResponse subject

/- `LLMClient.generate_response` (llm_client.py lines 105-211).  The
whole body sits in a try/except, so every path ends in a returned
`EmailResponse`: a raised LLM call gives the fallback; method 1 extracts
a brace-delimited candidate and tries to decode it (a decode failure
falls through to method 2, a validation failure escapes to the outer
handler and gives the fallback); method 2 parses the whole text. -/
def generate_response (env : GenEnv) (subject sender body : String)
    (analysis : EmailAnalysis) : EmailResponse :=
  match env.llm subject sender body analysis with
  | .error _ => fallbackResponse subject
  | .ok response_text =>
      match extractJsonCandidate response_text with
      | some json_str =>
          match env.jsonLoads json_str with
          | .ok data =>
              match validateEmailResponse data with
              | some r => r
              | none => fallbackResponse subject
          | .error _ => genMethod2 env response_text subject
      | none => genMethod2 env response_text subject

/- Both JSON extraction methods fail on `text`: method 1 finds no
candidate or fails to decode it, and method 2 fails to decode the whole
text. -/
def jsonExtractionFails (env : GenEnv) (text : String) : Prop :=
  (extractJsonCandidate text = none ∨
    ∃ s, extractJsonCandidate text = some s ∧ ∃ e, env.jsonLoads s = .error e) ∧
  ∃ e, env.jsonLoads text = .error e

/- ===== body truncation before analysis ===== -/

/- langgraph_workflow.py lines 71-76. -/
def truncateBodyWorkflow (body : String) : String :=
  if body.length > 4000 then body.take 4000 ++ "\n\n[Email truncated due to length]"
  else body

/- main_api.py lines 364-366. -/
def truncateBodyApi (body : String) : String :=
  if body.length > 4000 then body.take 4000 ++ "\n\n[Email truncated]"
  else body

/- ===== db_updated.py : the emails table ===== -/

/- One row of the `emails` table (db_updated.py lines 27-41).  The
primary key is the column `id` alone; `user_id` is an ordinary indexed
column.  Dates are abstract clock ticks. -/
structure EmailRow where
  id : String
  user_id : String
  subject : Option String
  sender : Option String
  received_date : Nat
  processed_date : Nat
  status : String
  category : Option String
  priority : Option Int
  sentiment : Option String
  response_sent : Option String
  thread_id : Option String
deriving DecidableEq, Repr

/- Python `new or old` on optional strings: an absent or empty new value
keeps the old one. -/
def pyOrStr (new old : Option String) : Option String :=
  match new with
  | some s => if s = "" then old else some s
  | none => old

/- Python `new or old` on optional ints: absent or zero keeps the old. -/
def pyOrInt (new old : Option Int) : Option Int :=
  match new with
  | some n => if n = 0 then old else some n
  | none => old

/- Keyword arguments of `Database.mark_as_processed` (db_updated.py
lines 74-86), with the source defaults. -/
structure MarkArgs where
  email_id : String
  user_id : String
  status : String
  response_sent : Option String := none
  category : Option String := none
  priority : Option Int := none
  sentiment : Option String := none
  subject : Option String := none
  sender : Option String := none
  thread_id : Option String := none
deriving DecidableEq, Repr

/- The update branch of `mark_as_processed` (db_updated.py lines
98-108): every field except `status`, `processed_date` and
`response_sent` is guarded by Python `or`; `response_sent` is
overwritten unconditionally. -/
def updateRow (r : EmailRow) (now : Nat) (a : MarkArgs) : EmailRow :=
  { r with
    subject := pyOrStr a.subject r.subject
    sender := pyOrStr a.sender r.sender
    processed_date := now
    status := a.status
    category := pyOrStr a.category r.category
    priority := pyOrInt a.priority r.priority
    sentiment := pyOrStr a.sentiment r.sentiment
    response_sent := a.response_sent
    thread_id := pyOrStr a.thread_id r.thread_id }

/- The insert branch of `mark_as_processed` (db_updated.py lines
110-125). -/
def newRow (now : Nat) (a : MarkArgs) : EmailRow :=
  { id := a.email_id
    user_id := a.user_id
    subject := a.subject
    sender := a.sender
    received_date := now
    processed_date := now
    status := a.status
    category := a.category
    priority := a.priority
    sentiment := a.sentiment
    response_sent := a.response_sent
    thread_id := a.thread_id }

/- SQLAlchemy `.first()` followed by attribute mutation: update the
first row matching the (id, user_id) filter. -/
def updateFirst (tbl : List EmailRow) (now : Nat) (a : MarkArgs) : List EmailRow :=
  match tbl with
  | [] => []
  | r :: rs =>
      if r.id = a.email_id ∧ r.user_id = a.user_id then updateRow r now a :: rs
      else r :: updateFirst rs now a

def rowKeyMatches (a : MarkArgs) (r : EmailRow) : Bool :=
  decide (r.id = a.email_id) && decide (r.user_id = a.user_id)

/- `Database.mark_as_processed` (db_updated.py lines 74-134): query the
row by (id, user_id); update it if found, otherwise insert a new row.
Because the table primary key is `id` alone, inserting when some other
user already has a row with this id violates the key and the commit
raises (rollback, re-raise), modelled by `.error`. -/
def mark_as_processed (tbl : List EmailRow) (now : Nat) (a : MarkArgs) :
    Except String (List EmailRow) :=
  match tbl.find? (rowKeyMatches a) with
  | some _ => .ok (updateFirst tbl now a)
  | none =>
      if tbl.any (fun r => decide (r.id = a.email_id)) then
        .error "duplicate key value violates unique constraint on emails.id"
      else
        .ok (tbl ++ [newRow now a])

/- A raising call is rolled back: the table is unchanged. -/
def applyMark (tbl : List EmailRow) (p : Nat × MarkArgs) : List EmailRow :=
  match mark_as_processed tbl p.1 p.2 with
  | .ok t => t
  | .error _ => tbl

def runMarks (tbl : List EmailRow) (calls : List (Nat × MarkArgs)) : List EmailRow :=
  calls.foldl applyMark tbl

def idCount (tbl : List EmailRow) (e : String) : Nat :=
  (tbl.filter (fun r => decide (r.id = e))).length

def keyCount (tbl : List EmailRow) (u e : String) : Nat :=
  (tbl.filter (fun r => decide (r.id = e) && decide (r.user_id = u))).length

/- The table invariant enforced by the primary key. -/
def UniqueIds (tbl : List EmailRow) : Prop := ∀ e, idCount tbl e ≤ 1

/- ===== auth.py : user records and registration ===== -/

/- The columns of the `users` table used by registration (auth.py lines
31-48). -/
structure UserRow where
  id : String
  email : String
  hashed_password : Option String
  name : String
  google_id : Option String
  gmail_connected : Bool
deriving DecidableEq, Repr

structure UserCreate where
  email : String
  password : String
  name : String
deriving DecidableEq, Repr

structure HttpError where
  status_code : Nat
  detail : String
deriving DecidableEq, Repr

/- `get_user_by_email` (auth.py lines 132-134). -/
def get_user_by_email (users : List UserRow) (email : String) : Option UserRow :=
  users.find? (fun u => decide (u.email = email))

/- `create_user` (auth.py lines 142-169): reject with 400 when the email
is taken, otherwise insert a fresh row.  `newId` stands for
`uuid.uuid4()` and `hash` for bcrypt. -/
def create_user (users : List UserRow) (req : UserCreate) (newId : String)
    (hash : String → String) : Except HttpError (List UserRow × UserRow) :=
  match get_user_by_email users req.email with
  | some _ => .error ⟨400, "Email already registered"⟩
  | none =>
      let u : UserRow :=
        { id := newId
          email := req.email
          hashed_password := some (hash req.password)
          name := req.name
          google_id := none
          gmail_connected := false }
      .ok (users ++ [u], u)

def emailCount (users : List UserRow) (em : String) : Nat :=
  (users.filter (fun u => decide (u.email = em))).length

def UniqueEmails (users : List UserRow) : Prop := ∀ em, emailCount users em ≤ 1

/- ===== association lists modelling Python dicts ===== -/

def alookup {α : Type} (m : List (String × α)) (k : String) : Option α :=
  match m with
  | [] => none
  | p :: rest => if p.1 = k then some p.2 else alookup rest k

def aset {α : Type} (m : List (String × α)) (k : String) (v : α) : List (String × α) :=
  match m with
  | [] => [(k, v)]
  | p :: rest => if p.1 = k then (k, v) :: rest else p :: aset rest k v

def aremove {α : Type} (m : List (String × α)) (k : String) : List (String × α) :=
  m.filter (fun p => decide (p.1 ≠ k))

/- ===== main_api.py : pending-response store and routes ===== -/

/- The `PendingResponse` pydantic model (main_api.py lines 89-103). -/
structure Pending where
  email_id : String
  subject : String
  sender : String
  body_preview : String
  body_full : String
  category : String
  priority : Int
  sentiment : String
  draft_response : String
  edited_response : Option String
  tone : String
  confidence : ℚ
  created_at : Nat
deriving DecidableEq, Repr

/- `pending_responses : user_id -> (email_id -> PendingResponse)`
(main_api.py line 42). -/
abbrev PendingMap : Type := List (String × List (String × Pending))

def lookupPending (m : PendingMap) (u e : String) : Option Pending :=
  match alookup m u with
  | none => none
  | some up => alookup up e

/- `ApprovalRequest` (main_api.py lines 105-108); the `email_id` field of
the body is ignored by the route, which uses the path parameter. -/
structure ApprovalRequest where
  action : String
  edited_response : Option String
deriving DecidableEq, Repr

/- `ApprovalItem` (main_api.py lines 111-113). -/
structure ApprovalItem where
  email_id : String
  action : String
deriving DecidableEq, Repr

structure SentMail where
  email_id : String
  recipient : String
  subject : String
  body : String
deriving DecidableEq, Repr

/- An email as returned by `fetch_unread_emails`. -/
structure FetchedEmail where
  id : String
  subject : String
  sender : String
  body : String
  thread_id : Option String
deriving DecidableEq, Repr

structure AnalyzeCall where
  subject : String
  sender : String
  body : String
  thread_id : Option String
deriving DecidableEq, Repr

/- The observable server state: the in-memory pending store, the
`emails` table, the replies handed to the Gmail client (newest first),
and a ghost log of the analysis prompts sent to the LLM (newest
first). -/
structure ApiState where
  pending : PendingMap
  emails : List EmailRow
  sent : List SentMail
  llmAnalyzeCalls : List AnalyzeCall
deriving DecidableEq, Repr

/- External services: the LLM analysis chain, the LLM decision chain,
the response generator oracles, whether `send_reply` succeeds for a
given message id, and the clock. -/
structure ApiEnv where
  analyze : AnalyzeCall → Except String EmailAnalysis
  decideOracle : DecidePromptInput → Except String EmailDecision
  gen : GenEnv
  sendOk : String → Bool
  now : Nat

structure BatchResult where
  email_id : String
  success : Bool
  message : String
deriving DecidableEq, Repr

inductive ApiResp where
  | ok (msg : String)
  | okSaved (edited : String)
  | httpError (code : Nat) (detail : String)
  | noContent
  | pendingList (l : List Pending)
  | batchResults (results : List BatchResult)
  | processed (count : Nat)
deriving DecidableEq, Repr

/- `Database.is_processed` (db_updated.py lines 62-72). -/
def is_processed (tbl : List EmailRow) (e u : String) : Bool :=
  tbl.any (fun r => decide (r.id = e) && decide (r.user_id = u))

def previewOf (body : String) : String :=
  if body.length > 300 then body.take 300 ++ "..." else body

/- Arguments of the `db.mark_as_processed` call in the skip branch of
`process_emails` (main_api.py lines 382-392). -/
def skipMarkArgs (u : String) (em : FetchedEmail) (a : EmailAnalysis) : MarkArgs :=
  { email_id := em.id
    user_id := u
    status := "skipped"
    category := some a.category.toStr
    priority := some a.priority
    sentiment := some a.sentiment.toStr
    subject := some em.subject
    sender := some em.sender
    thread_id := em.thread_id }

/- The body of the per-email loop of `process_emails` (main_api.py lines
359-422): skip already-processed mail, truncate the body, analyze,
decide, then either record a skip or store a draft in the pending map.
Any exception in the loop body is caught and the loop continues, so a
raising oracle or a raising database write leaves the state as it was
(apart from the prompt already sent).  Returns the state and whether
`processed_count` was incremented. -/
def processOne (env : ApiEnv) (u : String) (st : ApiState) (em : FetchedEmail) :
    ApiState × Bool :=
  if is_processed st.emails em.id u then
    (st, false)
  else
    let body := truncateBodyApi em.body
    let call : AnalyzeCall := ⟨em.subject, em.sender, body, em.thread_id⟩
    let st1 := { st with llmAnalyzeCalls := call :: st.llmAnalyzeCalls }
    match env.analyze call with
    | .error _ => (st1, false)
    | .ok analysis =>
        match decide_action env.decideOracle analysis em.subject em.sender with
        | .error _ => (st1, false)
        | .ok decision =>
            if decision.action = .skip then
              match mark_as_processed st1.emails env.now (skipMarkArgs u em analysis) with
              | .ok tbl => ({ st1 with emails := tbl }, false)
              | .error _ => (st1, false)
            else
              let resp := generate_response env.gen em.subject em.sender body analysis
              let p : Pending :=
                { email_id := em.id
                  subject := em.subject
                  sender := em.sender
                  body_preview := previewOf em.body
                  body_full := em.body
                  category := analysis.category.toStr
                  priority := analysis.priority
                  sentiment := analysis.sentiment.toStr
                  draft_response := resp.response_body
                  edited_response := none
                  tone := resp.tone.toStr
                  confidence := resp.confidence
                  created_at := env.now }
              let up := (alookup st1.pending u).getD []
              ({ st1 with pending := aset st1.pending u (aset up em.id p) }, true)

/- `process_emails` (main_api.py lines 336-433): ensure the user has a
slot in the pending map, then run the loop. -/
def apiProcess (env : ApiEnv) (s : ApiState) (u : String) (ems : List FetchedEmail) :
    ApiState × Nat :=
  let s0 :=
    match alookup s.pending u with
    | none => { s with pending := aset s.pending u [] }
    | some _ => s
  ems.foldl
    (fun acc em =>
      let r := processOne env u acc.1 em
      (r.1, if r.2 then acc.2 + 1 else acc.2))
    (s0, 0)

/- The `db.mark_as_processed` call of the approve branch (main_api.py
lines 475-485); no thread_id is passed. -/
def approveMarkArgs (u e : String) (p : Pending) (sentBody : String) : MarkArgs :=
  { email_id := e
    user_id := u
    status := "responded"
    response_sent := some sentBody
    category := some p.category
    priority := some p.priority
    sentiment := some p.sentiment
    subject := some p.subject
    sender := some p.sender }

/- The `db.mark_as_processed` call of the reject branch (main_api.py
lines 523-533). -/
def rejectMarkArgs (u e : String) (p : Pending) : MarkArgs :=
  { email_id := e
    user_id := u
    status := "rejected"
    category := some p.category
    priority := some p.priority
    sentiment := some p.sentiment
    subject := some p.subject
    sender := some p.sender }

/- Python truthiness of `pending.edited_response or pending.draft_response`
(main_api.py line 465): an absent or empty edit falls back to the draft. -/
def responseToSend (p : Pending) : String :=
  match p.edited_response with
  | some t => if t = "" then p.draft_response else t
  | none => p.draft_response

/- `approve_response` (main_api.py lines 443-542).  A missing user slot
or missing entry gives 404 before the try block.  In the try block:
`approve` sends the edited-or-draft text and on success records the row
and deletes the entry; a failed send raises 500 with the entry intact; a
raising database write is caught by the outer handler as 500 after the
reply already went out, with the entry intact.  `edit` with truthy text
behaves like approve but sends the request text; with falsy text the
function falls through and returns None.  `save_edit` with truthy text
stores the edit on the entry.  `reject` records the row and deletes the
entry.  Anything else raises, re-wrapped as 500 by the outer handler. -/
def apiApprove (env : ApiEnv) (s : ApiState) (u e : String) (req : ApprovalRequest) :
    ApiState × ApiResp :=
  match alookup s.pending u with
  | none => (s, .httpError 404 "Email not found in pending responses")
  | some up =>
      match alookup up e with
      | none => (s, .httpError 404 "Email not found in pending responses")
      | some p =>
          if req.action = "approve" then
            let body := responseToSend p
            if env.sendOk e then
              let mail : SentMail := ⟨e, p.sender, "Re: " ++ p.subject, body⟩
              match mark_as_processed s.emails env.now (approveMarkArgs u e p body) with
              | .ok tbl =>
                  ({ s with emails := tbl
                            pending := aset s.pending u (aremove up e)
                            sent := mail :: s.sent },
                   .ok "Response sent successfully")
              | .error msg => ({ s with sent := mail :: s.sent }, .httpError 500 msg)
            else (s, .httpError 500 "Failed to send email")
          else if req.action = "edit" then
            match req.edited_response with
            | some t =>
                if t = "" then (s, .noContent)
                else if env.sendOk e then
                  let mail : SentMail := ⟨e, p.sender, "Re: " ++ p.subject, t⟩
                  match mark_as_processed s.emails env.now (approveMarkArgs u e p t) with
                  | .ok tbl =>
                      ({ s with emails := tbl
                                pending := aset s.pending u (aremove up e)
                                sent := mail :: s.sent },
                       .ok "Edited response sent successfully")
                  | .error msg => ({ s with sent := mail :: s.sent }, .httpError 500 msg)
                else (s, .httpError 500 "Failed to send email")
            | none => (s, .noContent)
          else if req.action = "save_edit" then
            match req.edited_response with
            | some t =>
                if t = "" then (s, .noContent)
                else
                  ({ s with pending :=
                        aset s.pending u (aset up e { p with edited_response := some t }) },
                   .okSaved t)
            | none => (s, .noContent)
          else if req.action = "reject" then
            match mark_as_processed s.emails env.now (rejectMarkArgs u e p) with
            | .ok tbl =>
                ({ s with emails := tbl
                          pending := aset s.pending u (aremove up e) },
                 .ok "Response rejected")
            | .error msg => (s, .httpError 500 msg)
          else (s, .httpError 500 "Invalid action")

/- One iteration of the `batch_approve` loop (main_api.py lines
561-617).  Only `approve` and `reject` do anything; an unknown action
appends no result.  `approve` always sends the draft text, never a saved
edit.  A raising database write is caught per item: the reply is already
out, the entry stays, and an error result is appended. -/
def batchStep (env : ApiEnv) (u : String) (acc : ApiState × List BatchResult)
    (item : ApprovalItem) : ApiState × List BatchResult :=
  let s := acc.1
  let results := acc.2
  match alookup s.pending u with
  | none => (s, results ++ [⟨item.email_id, false, "Email not found"⟩])
  | some up =>
      match alookup up item.email_id with
      | none => (s, results ++ [⟨item.email_id, false, "Email not found"⟩])
      | some p =>
          if item.action = "approve" then
            if env.sendOk item.email_id then
              let mail : SentMail :=
                ⟨item.email_id, p.sender, "Re: " ++ p.subject, p.draft_response⟩
              match mark_as_processed s.emails env.now
                  (approveMarkArgs u item.email_id p p.draft_response) with
              | .ok tbl =>
                  ({ s with emails := tbl
                            pending := aset s.pending u (aremove up item.email_id)
                            sent := mail :: s.sent },
                   results ++ [⟨item.email_id, true, "Sent"⟩])
              | .error msg =>
                  ({ s with sent := mail :: s.sent },
                   results ++ [⟨item.email_id, false, msg⟩])
            else (s, results ++ [⟨item.email_id, false, "Failed to send"⟩])
          else if item.action = "reject" then
            match mark_as_processed s.emails env.now (rejectMarkArgs u item.email_id p) with
            | .ok tbl =>
                ({ s with emails := tbl
                          pending := aset s.pending u (aremove up item.email_id) },
                 results ++ [⟨item.email_id, true, "Rejected"⟩])
            | .error msg => (s, results ++ [⟨item.email_id, false, msg⟩])
          else (s, results)

/- `batch_approve` (main_api.py lines 545-629). -/
def apiBatch (env : ApiEnv) (s : ApiState) (u : String) (items : List ApprovalItem) :
    ApiState × List BatchResult :=
  items.foldl (batchStep env u) (s, [])

/- The API operations, each tagged with the authenticated user. -/
inductive ApiOp where
  | process (u : String) (ems : List FetchedEmail)
  | listPending (u : String)
  | approve (u : String) (email_id : String) (req : ApprovalRequest)
  | batchApprove (u : String) (items : List ApprovalItem)
  | clearPending (u : String)
deriving DecidableEq, Repr

def ApiOp.user : ApiOp → String
  | .process u _ => u
  | .listPending u => u
  | .approve u _ _ => u
  | .batchApprove u _ => u
  | .clearPending u => u

/- One request against the server (main_api.py routes).  `clear_pending`
(lines 647-656) sets the user slot to an empty dict; `get_pending_responses`
(lines 436-440) reads the user slot. -/
def apiStep (env : ApiEnv) (s : ApiState) (op : ApiOp) : ApiState × ApiResp :=
  match op with
  | .process u ems =>
      let r := apiProcess env s u ems
      (r.1, .processed r.2)
  | .listPending u =>
      (s, .pendingList (((alookup s.pending u).getD []).map Prod.snd))
  | .approve u e req => apiApprove env s u e req
  | .batchApprove u items =>
      let r := apiBatch env s u items
      (r.1, .batchResults r.2)
  | .clearPending u => ({ s with pending := aset s.pending u [] }, .ok "cleared")

/- The only ways a request may hand a reply to the Gmail client:
`approve_response` with action "approve", or "edit" with non-empty
text, on an entry that is pending for the caller; or `batch_approve`
with an "approve" item for an entry that is pending for the caller. -/
def sendJustified (s : ApiState) (op : ApiOp) (m : SentMail) : Prop :=
  (∃ u e req, op = .approve u e req ∧ m.email_id = e ∧
      (lookupPending s.pending u e).isSome ∧
      (req.action = "approve" ∨
        (req.action = "edit" ∧ ∃ t, req.edited_response = some t ∧ t ≠ ""))) ∨
  (∃ u items, op = .batchApprove u items ∧
      (lookupPending s.pending u m.email_id).isSome ∧
      ApprovalItem.mk m.email_id "approve" ∈ items)

/- ===== langgraph_workflow.py : HumanInLoopWorkflow ===== -/

/- One console answer to the approval prompt (lines 161-192): approve,
reject, edit with the joined text, or anything else. -/
inductive Choice where
  | y : Choice
  | n : Choice
  | e : String → Choice
  | other : String → Choice
deriving DecidableEq, Repr

/- `EmailWorkflowState` (lines 9-19). -/
structure WfState where
  email_id : String
  subject : String
  sender : String
  body : String
  thread_id : Option String
  analysis : Option EmailAnalysis
  decision : Option EmailDecision
  response : Option EmailResponse
  user_approval : Bool
  approval_status : String
deriving DecidableEq, Repr

structure WfEnv where
  analyze : AnalyzeCall → Except String EmailAnalysis
  decideOracle : DecidePromptInput → Except String EmailDecision
  gen : GenEnv
  autoApproveCategories : List Category
  inputs : List Choice
  sendOk : Bool

inductive WfEvent where
  | analyzeCalled (c : AnalyzeCall)
  | generated (r : EmailResponse)
  | sendAttempted (recipient subject body : String) (thread : Option String)
  | dbMarked (status : String)
deriving DecidableEq, Repr

/- Default analysis built when the analyze node catches an exception
(lines 88-95). -/
def defaultAnalysis : EmailAnalysis :=
  { category := .unknown
    priority := 3
    requires_response := false
    sentiment := .neutral
    key_points := ["Failed to analyze"]
    suggested_action := "Manual review required" }

/- The `analyze` node (lines 67-96): truncate the body, call the LLM,
and on an exception fall back to the default analysis. -/
def wfAnalyze (env : WfEnv) (st : WfState) : WfState × List WfEvent :=
  let body := truncateBodyWorkflow st.body
  let call : AnalyzeCall := ⟨st.subject, st.sender, body, st.thread_id⟩
  match env.analyze call with
  | .ok a => ({ st with analysis := some a }, [.analyzeCalled call])
  | .error _ => ({ st with analysis := some defaultAnalysis }, [.analyzeCalled call])

/- The `decide` node (lines 98-108): no exception handler, so a raising
LLM call propagates out of the graph. -/
def wfDecide (env : WfEnv) (st : WfState) : Except String WfState :=
  match st.analysis with
  | none => .error "state has no analysis"
  | some a =>
      match decide_action env.decideOracle a st.subject st.sender with
      | .ok d => .ok { st with decision := some d }
      | .error e => .error e

/- `should_respond` (lines 110-112). -/
def should_respond (d : EmailDecision) : String :=
  if d.action = .respond then "respond" else "skip"

/- The `generate_response` node (lines 114-125): the full, untruncated
body is passed, and the approval status is set to "pending". -/
def wfGenerate (env : WfEnv) (st : WfState) : WfState × List WfEvent :=
  match st.analysis with
  | none => (st, [])
  | some a =>
      let r := generate_response env.gen st.subject st.sender st.body a
      ({ st with response := some r, approval_status := "pending" }, [.generated r])

/- The console loop of `request_approval` (lines 161-193): consume
answers until one approves, rejects, or edits with non-blank text;
`none` models the process blocking forever on input. -/
def readApproval (inputs : List Choice) (st : WfState) : Option WfState :=
  match inputs with
  | [] => none
  | c :: rest =>
      match c with
      | .y => some { st with user_approval := true, approval_status := "approved" }
      | .n => some { st with user_approval := false, approval_status := "rejected" }
      | .e text =>
          if text.trim = "" then readApproval rest st
          else
            some { st with
                    response := st.response.map (fun r => { r with response_body := text })
                    user_approval := true
                    approval_status := "approved" }
      | .other _ => readApproval rest st

/- The `request_approval` node (lines 127-194): auto-approve when the
category is configured, otherwise ask the console. -/
def wfRequestApproval (env : WfEnv) (st : WfState) : Option WfState :=
  match st.analysis with
  | none => none
  | some a =>
      if a.category ∈ env.autoApproveCategories then
        some { st with user_approval := true, approval_status := "auto" }
      else readApproval env.inputs st

/- The conditional edge map on `request_approval` (lines 53-61):
`check_approval` returns the approval status and the graph routes
"approved" and "auto" to `send_response`, "rejected" to `skip`; any
other value has no edge and the graph run raises. -/
def checkApprovalRoute (status : String) : Except String String :=
  if status = "approved" ∨ status = "auto" then .ok "send_response"
  else if status = "rejected" then .ok "skip"
  else .error "no edge for approval status"

/- The `send_response` node (lines 200-228): always attempt the send;
record the row only when it succeeds. -/
def wfSend (env : WfEnv) (st : WfState) : WfState × List WfEvent :=
  match st.response with
  | none => (st, [])
  | some r =>
      let ev := WfEvent.sendAttempted st.sender ("Re: " ++ st.subject)
        r.response_body st.thread_id
      if env.sendOk then (st, [ev, .dbMarked "responded"]) else (st, [ev])

/- The `skip` node (lines 230-243): record the email as skipped. -/
def wfSkip (_env : WfEnv) (st : WfState) : WfState × List WfEvent :=
  (st, [.dbMarked "skipped"])

inductive WfResult where
  | finished (st : WfState)
  | blocked
  | errored (msg : String)
deriving Repr

/- The compiled graph (lines 29-65): analyze, decide, conditional
branch on `should_respond`, generate, request approval, conditional
branch on `check_approval`, then send or skip, then END. -/
def runWorkflow (env : WfEnv) (init : WfState) : WfResult × List WfEvent :=
  let a := wfAnalyze env init
  match wfDecide env a.1 with
  | .error msg => (.errored msg, a.2)
  | .ok st2 =>
      match st2.decision with
      | none => (.errored "state has no decision", a.2)
      | some d =>
          if should_respond d = "respond" then
            let g := wfGenerate env st2
            match wfRequestApproval env g.1 with
            | none => (.blocked, a.2 ++ g.2)
            | some st4 =>
                match checkApprovalRoute st4.approval_status with
                | .error msg => (.errored msg, a.2 ++ g.2)
                | .ok route =>
                    if route = "send_response" then
                      let snd := wfSend env st4
                      (.finished snd.1, a.2 ++ g.2 ++ snd.2)
                    else
                      let sk := wfSkip env st4
                      (.finished sk.1, a.2 ++ g.2 ++ sk.2)
          else
            let sk := wfSkip env st2
            (.finished sk.1, a.2 ++ sk.2)

/- `process_email` builds the initial state (lines 245-258). -/
def initialWfState (em : FetchedEmail) : WfState :=
  { email_id := em.id
    subject := em.subject
    sender := em.sender
    body := em.body
    thread_id := em.thread_id
    analysis := none
    decision := none
    response := none
    user_approval := false
    approval_status := "pending" }

/- ===== concrete instances used to evaluate the theorems ===== -/

def genEnvDown : GenEnv :=
  { llm := fun _ _ _ _ => .error "connection error"
    jsonLoads := fun _ => .error "Expecting value" }

def apiEnvDown : ApiEnv :=
  { analyze := fun _ => .error "connection error"
    decideOracle := fun _ => .error "connection error"
    gen := genEnvDown
    sendOk := fun _ => true
    now := 0 }

def apiEnvSendFail : ApiEnv :=
  { apiEnvDown with sendOk := fun _ => false }

def wfEnvYes : WfEnv :=
  { analyze := fun _ => .error "connection error"
    decideOracle := fun _ => .ok ⟨.respond, "needs a reply"⟩
    gen := genEnvDown
    autoApproveCategories := []
    inputs := [.y]
    sendOk := true }

def wfEnvSkip : WfEnv :=
  { wfEnvYes with decideOracle := fun _ => .ok ⟨.skip, "marketing"⟩ }

def pendingW : Pending :=
  { email_id := "m1"
    subject := "Hello"
    sender := "alice@example.com"
    body_preview := "hi"
    body_full := "hi"
    category := "work"
    priority := 3
    sentiment := "neutral"
    draft_response := "the draft"
    edited_response := none
    tone := "formal"
    confidence := 1/2
    created_at := 0 }

def stateW : ApiState :=
  { pending := [("u", [("m1", pendingW)]), ("v", [("m9", pendingW)])]
    emails := []
    sent := []
    llmAnalyzeCalls := [] }

/- A state in which another user already owns the `emails` row whose
primary key equals the message id that user "u" has pending. -/
def stateConflict : ApiState :=
  { pending := [("u", [("m1", pendingW)])]
    emails := [{ id := "m1"
                 user_id := "v"
                 subject := some "Hello"
                 sender := some "alice@example.com"
                 received_date := 0
                 processed_date := 0
                 status := "skipped"
                 category := none
                 priority := none
                 sentiment := none
                 response_sent := none
                 thread_id := none }]
    sent := []
    llmAnalyzeCalls := [] }

def longBodyEm : FetchedEmail :=
  { id := "m2"
    subject := "Long"
    sender := "bob@example.com"
    body := String.mk (List.replicate 4001 'a')
    thread_id := none }

def wfStateShort : WfState := initialWfState
  { id := "m3", subject := "Short", sender := "carol@example.com", body := "hi", thread_id := none }

def wfSt2Skip : WfState :=
  { wfStateShort with
      analysis := some defaultAnalysis
      decision := some ⟨.skip, "marketing"⟩ }

def cexOracle : DecidePromptInput → Except String EmailDecision :=
  fun p => if p.subject = "A" then .ok ⟨.respond, "subject says A"⟩
           else .ok ⟨.skip, "subject does not say A"⟩

def cexAnalysis : EmailAnalysis :=
  { category := .work
    priority := 4
    requires_response := true
    sentiment := .neutral
    key_points := []
    suggested_action := "reply" }

def approveReq : ApprovalRequest := { action := "approve", edited_response := none }

def rejectReq : ApprovalRequest := { action := "reject", edited_response := none }

def saveEditReq (t : String) : ApprovalRequest :=
  { action := "save_edit", edited_response := some t }

def userW : UserRow :=
  { id := "id1"
    email := "alice@example.com"
    hashed_password := some "h"
    name := "Alice"
    google_id := none
    gmail_connected := false }

def genEnvBadJson : GenEnv :=
  { llm := fun _ _ _ _ => .ok "no json here"
    jsonLoads := fun _ => .error "Expecting value" }

def markArgsConflict : MarkArgs :=
  { email_id := "m1", user_id := "u", status := "responded", response_sent := some "ok" }

def markCallsW : List (Nat × MarkArgs) :=
  [(0, { email_id := "m1", user_id := "u", status := "skipped" }),
   (1, { email_id := "m1", user_id := "u", status := "responded",
         response_sent := some "the draft" })]

def rowVm1 : EmailRow :=
  { id := "m1"
    user_id := "v"
    subject := some "Hello"
    sender := some "alice@example.com"
    received_date := 0
    processed_date := 0
    status := "skipped"
    category := none
    priority := none
    sentiment := none
    response_sent := none
    thread_id := none }

def userBob : UserRow :=
  { id := "id2"
    email := "bob@example.com"
    hashed_password := some "h2"
    name := "Bob"
    google_id := none
    gmail_connected := false }

/- ===== helper lemmas ===== -/

lemma emailCount_append (l1 l2 : List UserRow) (em : String) :
    emailCount (l1 ++ l2) em = emailCount l1 em + emailCount l2 em := by
  unfold emailCount
  rw [List.filter_append, List.length_append]

lemma emailCount_singleton (r : UserRow) (em : String) :
    emailCount [r] em = if r.email = em then 1 else 0 := by
  unfold emailCount
  by_cases h : r.email = em <;> simp [h]

lemma alookup_aset_self {α : Type} (m : List (String × α)) (k : String) (v : α) :
    alookup (aset m k v) k = some v := by
  induction m with
  | nil => simp [aset, alookup]
  | cons p rest ih =>
      by_cases h : p.1 = k
      · simp [aset, alookup, h]
      · simp [aset, alookup, h, ih]

lemma alookup_aset_ne {α : Type} (m : List (String × α)) (k k2 : String) (v : α)
    (h : k2 ≠ k) : alookup (aset m k v) k2 = alookup m k2 := by
  induction m with
  | nil =>
      have hk : k ≠ k2 := Ne.symm h
      simp [aset, alookup, hk]
  | cons p rest ih =>
      by_cases hp : p.1 = k
      · have hk : k ≠ k2 := Ne.symm h
        simp [aset, alookup, hp, hk]
      · by_cases hq : p.1 = k2
        · simp [aset, alookup, hp, hq, h]
        · simp [aset, alookup, hp, hq, ih]

lemma alookup_aremove_self {α : Type} (m : List (String × α)) (k : String) :
    alookup (aremove m k) k = none := by
  induction m with
  | nil => simp [aremove, alookup]
  | cons p rest ih =>
      by_cases h : p.1 = k
      · simpa [aremove, alookup, h] using ih
      · simpa [aremove, alookup, h] using ih

lemma alookup_aremove_ne {α : Type} (m : List (String × α)) (k k2 : String)
    (h : k2 ≠ k) : alookup (aremove m k) k2 = alookup m k2 := by
  induction m with
  | nil => simp [aremove, alookup]
  | cons p rest ih =>
      by_cases hp : p.1 = k
      · have h2 : p.1 ≠ k2 := by
          rw [hp]; exact Ne.symm h
        simpa [aremove, alookup, hp, h2, Ne.symm h] using ih
      · by_cases hq : p.1 = k2
        · simp [aremove, alookup, hp, hq, h]
        · simpa [aremove, alookup, hp, hq] using ih

lemma processOne_calls (env : ApiEnv) (u : String) (st : ApiState) (em : FetchedEmail)
    (h : is_processed st.emails em.id u = false) :
    (processOne env u st em).1.llmAnalyzeCalls =
      AnalyzeCall.mk em.subject em.sender (truncateBodyApi em.body) em.thread_id
        :: st.llmAnalyzeCalls := by
  cases henv : env.analyze ⟨em.subject, em.sender, truncateBodyApi em.body, em.thread_id⟩ with
  | error e => simp [processOne, h, henv]
  | ok analysis =>
      cases hdec : decide_action env.decideOracle analysis em.subject em.sender with
      | error e => simp [processOne, h, henv, hdec]
      | ok decision =>
          by_cases hd : decision.action = .skip
          · cases hmark : mark_as_processed st.emails env.now (skipMarkArgs u em analysis) with
            | ok tbl => simp [processOne, h, henv, hdec, hd, hmark]
            | error msg => simp [processOne, h, henv, hdec, hd, hmark]
          · simp [processOne, h, henv, hdec, hd]

lemma wfAnalyze_events (env : WfEnv) (st : WfState) :
    (wfAnalyze env st).2 =
      [.analyzeCalled ⟨st.subject, st.sender, truncateBodyWorkflow st.body, st.thread_id⟩] := by
  cases henv : env.analyze ⟨st.subject, st.sender, truncateBodyWorkflow st.body, st.thread_id⟩ with
  | error e => simp [wfAnalyze, henv]
  | ok a => simp [wfAnalyze, henv]

/- ===== theorems ===== -/

/-- C10: email bodies are truncated before classification.  In
`process_emails` the body handed to the LLM analysis call is the first
4000 characters followed by "\n\n[Email truncated]" when the body
exceeds 4000 characters, and the unchanged body otherwise; in the
workflow's analyze node the same holds with the marker
"\n\n[Email truncated due to length]". -/
theorem email_body_truncation (env : ApiEnv) (wenv : WfEnv) (u : String)
    (st : ApiState) (em : FetchedEmail) (wst : WfState)
    (hnp : is_processed st.emails em.id u = false) :
    ((em.body.length > 4000 →
        (processOne env u st em).1.llmAnalyzeCalls =
          AnalyzeCall.mk em.subject em.sender
              (em.body.take 4000 ++ "\n\n[Email truncated]") em.thread_id
            :: st.llmAnalyzeCalls) ∧
      (em.body.length ≤ 4000 →
        (processOne env u st em).1.llmAnalyzeCalls =
          AnalyzeCall.mk em.subject em.sender em.body em.thread_id
            :: st.llmAnalyzeCalls)) ∧
    ((wst.body.length > 4000 →
        (wfAnalyze wenv wst).2 =
          [.analyzeCalled ⟨wst.subject, wst.sender,
              wst.body.take 4000 ++ "\n\n[Email truncated due to length]", wst.thread_id⟩]) ∧
      (wst.body.length ≤ 4000 →
        (wfAnalyze wenv wst).2 =
          [.analyzeCalled ⟨wst.subject, wst.sender, wst.body, wst.thread_id⟩])) := by
  refine ⟨⟨?_, ?_⟩, ?_, ?_⟩
  · intro hlen
    rw [processOne_calls env u st em hnp]
    simp [truncateBodyApi, hlen]
  · intro hlen
    rw [processOne_calls env u st em hnp]
    simp [truncateBodyApi, Nat.not_lt.mpr hlen]
  · intro hlen
    rw [wfAnalyze_events]
    simp [truncateBodyWorkflow, hlen]
  · intro hlen
    rw [wfAnalyze_events]
    simp [truncateBodyWorkflow, Nat.not_lt.mpr hlen]

/-- Witness for C10: a 4001-character body is truncated to its first
4000 characters plus the marker on the API path, and a 2-character body
passes through the workflow path unchanged. -/
theorem email_body_truncation_witness :
    (processOne apiEnvDown "u" ⟨[], [], [], []⟩ longBodyEm).1.llmAnalyzeCalls =
      [AnalyzeCall.mk "Long" "bob@example.com"
          ((String.mk (List.replicate 4001 'a')).take 4000 ++ "\n\n[Email truncated]") none] ∧
    (wfAnalyze wfEnvYes wfStateShort).2 =
      [.analyzeCalled ⟨"Short", "carol@example.com", "hi", none⟩] :=
  ⟨(email_body_truncation apiEnvDown wfEnvYes "u" ⟨[], [], [], []⟩ longBodyEm wfStateShort
      rfl).1.1
      (by show (List.replicate 4001 'a').length > 4000
          rw [List.length_replicate]
          norm_num),
   (email_body_truncation apiEnvDown wfEnvYes "u" ⟨[], [], [], []⟩ longBodyEm wfStateShort
      rfl).2.2 (by decide)⟩

/-- C4 counterexample: the decision is not determined by the four
classification fields and static rules alone.  `decide_action` hands
the whole prompt — including the subject — to the LLM chain, so one and
the same analysis (all four fields trivially equal) can yield "respond"
for one subject and "skip" for another under the same LLM behaviour. -/
theorem decide_action_not_static_cex :
    ¬ (∀ (oracle : DecidePromptInput → Except String EmailDecision)
        (a1 a2 : EmailAnalysis) (s1 d1 s2 d2 : String),
        a1.category = a2.category → a1.priority = a2.priority →
        a1.requires_response = a2.requires_response → a1.sentiment = a2.sentiment →
        Except.map EmailDecision.action (decide_action oracle a1 s1 d1) =
          Except.map EmailDecision.action (decide_action oracle a2 s2 d2)) := by
  intro hclaim
  have h := hclaim cexOracle cexAnalysis cexAnalysis "A" "sender" "B" "sender"
    rfl rfl rfl rfl
  simp [decide_action, cexOracle, cexAnalysis, Except.map] at h

/-- C4 amended: the decision policy is not a static rule set over the
four classification fields; `decide_action` delegates the respond/skip
choice to the LLM, whose prompt embeds the rules as text together with
the subject, the sender and the joined key points.  For a fixed LLM
oracle the decision is a function of exactly these prompt inputs: two
analyses agreeing on category, priority, requires_response, sentiment
and key_points, asked about the same subject and sender, receive the
same decision (the `suggested_action` field plays no role). -/
theorem decide_action_prompt_determined
    (oracle : DecidePromptInput → Except String EmailDecision)
    (a1 a2 : EmailAnalysis) (subject sender : String)
    (hc : a1.category = a2.category) (hp : a1.priority = a2.priority)
    (hr : a1.requires_response = a2.requires_response)
    (hs : a1.sentiment = a2.sentiment) (hk : a1.key_points = a2.key_points) :
    decide_action oracle a1 subject sender = decide_action oracle a2 subject sender := by
  unfold decide_action
  rw [hc, hp, hr, hs, hk]

/-- Witness for the amended C4: two analyses differing only in
`suggested_action` get the same decision from the counterexample
oracle. -/
theorem decide_action_prompt_determined_witness :
    decide_action cexOracle cexAnalysis "A" "sender" =
      decide_action cexOracle { cexAnalysis with suggested_action := "ignore" } "A" "sender" :=
  decide_action_prompt_determined cexOracle cexAnalysis
    { cexAnalysis with suggested_action := "ignore" } "A" "sender" rfl rfl rfl rfl rfl

/-- C8: users are unique by email.  `create_user` on a request whose
email is already registered fails with HTTP 400 "Email already
registered" and (the error return carries no table) creates no record;
on a fresh email it appends exactly one row with that email, so a table
with unique emails keeps unique emails. -/
theorem create_user_unique_email (users : List UserRow) (req : UserCreate)
    (newId : String) (hash : String → String) :
    ((get_user_by_email users req.email).isSome →
      create_user users req newId hash = .error ⟨400, "Email already registered"⟩) ∧
    (UniqueEmails users →
      ∀ t u, create_user users req newId hash = .ok (t, u) → UniqueEmails t) := by
  constructor
  · intro hsome
    obtain ⟨x, hx⟩ := Option.isSome_iff_exists.mp hsome
    simp [create_user, hx]
  · intro huniq t u hok
    cases hfind : get_user_by_email users req.email with
    | some x => simp [create_user, hfind] at hok
    | none =>
        have hnone : ∀ r ∈ users, ¬ (decide (r.email = req.email) = true) :=
          List.find?_eq_none.mp hfind
        have hcount : emailCount users req.email = 0 := by
          unfold emailCount
          rw [List.length_eq_zero, List.filter_eq_nil_iff]
          intro r hr
          simpa using hnone r hr
        simp [create_user, hfind] at hok
        intro em
        rw [← hok.1, emailCount_append, emailCount_singleton]
        by_cases hem : req.email = em
        · rw [if_pos hem, ← hem, hcount]
        · rw [if_neg hem]
          have := huniq em
          omega

/-- Witness for C8: with one registered user, a second registration
with the same email returns the 400 error, and registration with a
fresh email preserves uniqueness. -/
theorem create_user_unique_email_witness :
    create_user [userW] ⟨"alice@example.com", "secret1", "Alice2"⟩ "id2" (fun _ => "h2") =
      .error ⟨400, "Email already registered"⟩ ∧
    UniqueEmails ([userW] ++ [userBob]) := by
  constructor
  · exact (create_user_unique_email [userW] ⟨"alice@example.com", "secret1", "Alice2"⟩
      "id2" (fun _ => "h2")).1 (by decide)
  · exact (create_user_unique_email [userW] ⟨"bob@example.com", "secret2", "Bob"⟩
        "id2" (fun _ => "h2")).2
      (fun em => by
        rw [emailCount_singleton]
        split <;> norm_num)
      ([userW] ++ [userBob]) userBob rfl

/-- C5: the response generator never fails.  `generate_response`
returns an `EmailResponse` on every input (it is a total function into
`EmailResponse`); when the LLM call raises, or when JSON extraction
fails both ways (no regex candidate or an undecodable one, and an
undecodable whole text), it returns the fallback that references the
subject, with tone "formal" and confidence 0.5. -/
theorem generate_response_total_fallback (env : GenEnv) (subject sender body : String)
    (analysis : EmailAnalysis) :
    ((∃ e, env.llm subject sender body analysis = .error e) →
      generate_response env subject sender body analysis = fallbackResponse subject) ∧
    (∀ text, env.llm subject sender body analysis = .ok text →
      jsonExtractionFails env text →
      generate_response env subject sender body analysis = fallbackResponse subject) ∧
    (fallbackResponse subject).response_body =
      "Thank you for your email regarding: " ++ subject ++
        "\n\nI have received your message and will respond shortly.\n\nBest regards" ∧
    (fallbackResponse subject).tone = .formal ∧
    (fallbackResponse subject).confidence = 1/2 := by
  refine ⟨?_, ?_, rfl, rfl, rfl⟩
  · rintro ⟨e, he⟩
    simp [generate_response, he]
  · rintro text htext ⟨h1, e2, he2⟩
    rcases h1 with hnone | ⟨s, hs, e1, he1⟩
    · simp [generate_response, htext, hnone, genMethod2, he2]
    · simp [generate_response, htext, hs, he1, genMethod2, he2]

/-- Witness for C5: a raising LLM gives the fallback, and an LLM reply
with no parsable JSON gives the fallback. -/
theorem generate_response_total_fallback_witness :
    generate_response genEnvDown "Subj" "s@example.com" "hello" cexAnalysis =
      fallbackResponse "Subj" ∧
    generate_response genEnvBadJson "Subj" "s@example.com" "hello" cexAnalysis =
      fallbackResponse "Subj" :=
  ⟨(generate_response_total_fallback genEnvDown "Subj" "s@example.com" "hello"
      cexAnalysis).1 ⟨"connection error", rfl⟩,
   (generate_response_total_fallback genEnvBadJson "Subj" "s@example.com" "hello"
      cexAnalysis).2.1 "no json here" rfl ⟨Or.inl rfl, "Expecting value", rfl⟩⟩

lemma rowKeyMatches_iff (a : MarkArgs) (r : EmailRow) :
    rowKeyMatches a r = true ↔ (r.id = a.email_id ∧ r.user_id = a.user_id) := by
  simp [rowKeyMatches]

lemma rowKeyMatches_updateRow (a : MarkArgs) (r : EmailRow) (now : Nat) :
    rowKeyMatches a (updateRow r now a) = rowKeyMatches a r := rfl

lemma length_updateFirst (tbl : List EmailRow) (now : Nat) (a : MarkArgs) :
    (updateFirst tbl now a).length = tbl.length := by
  induction tbl with
  | nil => rfl
  | cons r rs ih =>
      unfold updateFirst
      by_cases h : r.id = a.email_id ∧ r.user_id = a.user_id
      · simp [h]
      · simp [h, ih]

lemma find?_updateFirst (tbl : List EmailRow) (now : Nat) (a : MarkArgs) :
    List.find? (rowKeyMatches a) (updateFirst tbl now a) =
      (List.find? (rowKeyMatches a) tbl).map (fun r => updateRow r now a) := by
  induction tbl with
  | nil => rfl
  | cons r rs ih =>
      by_cases h : r.id = a.email_id ∧ r.user_id = a.user_id
      · have hb : rowKeyMatches a r = true := (rowKeyMatches_iff a r).mpr h
        have hb2 : rowKeyMatches a (updateRow r now a) = true := by
          rw [rowKeyMatches_updateRow]; exact hb
        simp [updateFirst, h, List.find?_cons, hb, hb2]
      · have hb : rowKeyMatches a r = false :=
          Bool.eq_false_iff.mpr (fun hx => h ((rowKeyMatches_iff a r).mp hx))
        simp [updateFirst, h, List.find?_cons, hb, ih]

lemma mem_updateFirst_of_nomatch (tbl : List EmailRow) (now : Nat) (a : MarkArgs)
    (r2 : EmailRow) (hmem : r2 ∈ tbl) (hno : rowKeyMatches a r2 = false) :
    r2 ∈ updateFirst tbl now a := by
  induction tbl with
  | nil => simp at hmem
  | cons r rs ih =>
      by_cases h : r.id = a.email_id ∧ r.user_id = a.user_id
      · have hb : rowKeyMatches a r = true := (rowKeyMatches_iff a r).mpr h
        rcases List.mem_cons.mp hmem with heq | hmem2
        · rw [heq] at hno
          rw [hno] at hb
          cases hb
        · unfold updateFirst
          simp [h, hmem2]
      · unfold updateFirst
        rcases List.mem_cons.mp hmem with heq | hmem2
        · simp [h, heq]
        · simp [h, ih hmem2]

lemma keyCount_updateFirst (tbl : List EmailRow) (now : Nat) (a : MarkArgs)
    (u e : String) :
    keyCount (updateFirst tbl now a) u e = keyCount tbl u e := by
  induction tbl with
  | nil => rfl
  | cons r rs ih =>
      unfold updateFirst
      by_cases h : r.id = a.email_id ∧ r.user_id = a.user_id
      · rw [if_pos h]
        unfold keyCount
        rw [List.filter_cons, List.filter_cons]
        have hid : (updateRow r now a).id = r.id := rfl
        have huid : (updateRow r now a).user_id = r.user_id := rfl
        rw [hid, huid]
        split <;> simp
      · rw [if_neg h]
        unfold keyCount at ih ⊢
        rw [List.filter_cons, List.filter_cons]
        split <;> simp [ih]

lemma idCount_updateFirst (tbl : List EmailRow) (now : Nat) (a : MarkArgs)
    (e : String) :
    idCount (updateFirst tbl now a) e = idCount tbl e := by
  induction tbl with
  | nil => rfl
  | cons r rs ih =>
      unfold updateFirst
      by_cases h : r.id = a.email_id ∧ r.user_id = a.user_id
      · rw [if_pos h]
        unfold idCount
        rw [List.filter_cons, List.filter_cons]
        have hid : (updateRow r now a).id = r.id := rfl
        rw [hid]
        split <;> simp
      · rw [if_neg h]
        unfold idCount at ih ⊢
        rw [List.filter_cons, List.filter_cons]
        split <;> simp [ih]

lemma keyCount_le_idCount (tbl : List EmailRow) (u e : String) :
    keyCount tbl u e ≤ idCount tbl e := by
  induction tbl with
  | nil => simp [keyCount, idCount]
  | cons r rs ih =>
      unfold keyCount idCount at ih ⊢
      rw [List.filter_cons, List.filter_cons]
      by_cases h1 : r.id = e
      · by_cases h2 : r.user_id = u <;> simp [h1, h2] <;> omega
      · simp [h1]
        omega

lemma idCount_append (l1 l2 : List EmailRow) (e : String) :
    idCount (l1 ++ l2) e = idCount l1 e + idCount l2 e := by
  unfold idCount
  rw [List.filter_append, List.length_append]

lemma idCount_singleton (r : EmailRow) (e : String) :
    idCount [r] e = if r.id = e then 1 else 0 := by
  unfold idCount
  by_cases h : r.id = e <;> simp [h]

lemma uniqueIds_applyMark (tbl : List EmailRow) (p : Nat × MarkArgs)
    (h : UniqueIds tbl) : UniqueIds (applyMark tbl p) := by
  unfold applyMark mark_as_processed
  cases hfind : List.find? (rowKeyMatches p.2) tbl with
  | some r0 =>
      intro e
      simpa [idCount_updateFirst] using h e
  | none =>
      by_cases hany : tbl.any (fun r => decide (r.id = p.2.email_id)) = true
      · simp only [hany, if_true]
        exact h
      · have hany2 : (tbl.any fun r => decide (r.id = p.2.email_id)) = false :=
          Bool.eq_false_iff.mpr hany
        rw [hany2]
        simp only [Bool.false_eq_true, if_false]
        have hall : ∀ r ∈ tbl, r.id ≠ p.2.email_id := by
          intro r hr heq
          exact hany (List.any_eq_true.mpr ⟨r, hr, by simp [heq]⟩)
        have hzero : idCount tbl p.2.email_id = 0 := by
          unfold idCount
          rw [List.length_eq_zero, List.filter_eq_nil_iff]
          intro r hr
          simp [hall r hr]
        intro e
        show idCount (tbl ++ [newRow p.1 p.2]) e ≤ 1
        rw [idCount_append, idCount_singleton]
        by_cases he : (newRow p.1 p.2).id = e
        · have he2 : p.2.email_id = e := he
          rw [if_pos he, ← he2, hzero]
        · rw [if_neg he]
          have := h e
          omega

lemma uniqueIds_runMarks (calls : List (Nat × MarkArgs)) (tbl : List EmailRow)
    (h : UniqueIds tbl) : UniqueIds (runMarks tbl calls) := by
  induction calls generalizing tbl with
  | nil => exact h
  | cons c cs ih => exact ih (applyMark tbl c) (uniqueIds_applyMark tbl c h)

/-- C3: (user_id, message_id) is an idempotency key for processed-email
records.  Any sequence of `mark_as_processed` calls starting from the
empty table leaves at most one `emails` row per (user_id, email_id)
pair; and a call whose (user_id, email_id) key already has a row
succeeds by updating that row in place — same table length, the row
found under the key is the old row updated (status and sent text
overwritten), the key count is unchanged, and every other row
survives — instead of inserting a duplicate. -/
theorem mark_as_processed_idempotency
    (calls : List (Nat × MarkArgs)) (tbl : List EmailRow) (now : Nat) (a : MarkArgs)
    (hkey : ∃ r ∈ tbl, rowKeyMatches a r = true) :
    (∀ u e, keyCount (runMarks [] calls) u e ≤ 1) ∧
    ∃ t, mark_as_processed tbl now a = .ok t ∧
      t.length = tbl.length ∧
      List.find? (rowKeyMatches a) t =
        (List.find? (rowKeyMatches a) tbl).map (fun r => updateRow r now a) ∧
      (∀ r, List.find? (rowKeyMatches a) t = some r →
        r.status = a.status ∧ r.response_sent = a.response_sent) ∧
      (∀ u e, keyCount t u e = keyCount tbl u e) ∧
      (∀ r ∈ tbl, rowKeyMatches a r = false → r ∈ t) := by
  constructor
  · intro u e
    have huniq : UniqueIds (runMarks [] calls) :=
      uniqueIds_runMarks calls [] (by intro e2; simp [idCount])
    exact le_trans (keyCount_le_idCount _ u e) (huniq e)
  · cases hfind : List.find? (rowKeyMatches a) tbl with
    | none =>
        obtain ⟨r, hr, hmatch⟩ := hkey
        have := List.find?_eq_none.mp hfind r hr
        rw [hmatch] at this
        simp at this
    | some r0 =>
        refine ⟨updateFirst tbl now a, ?_, length_updateFirst tbl now a, ?_, ?_, ?_, ?_⟩
        · simp [mark_as_processed, hfind]
        · rw [find?_updateFirst tbl now a, hfind]
        · intro r hr
          rw [find?_updateFirst tbl now a, hfind] at hr
          have hr2 : updateRow r0 now a = r := by simpa using hr
          rw [← hr2]
          exact ⟨rfl, rfl⟩
        · intro u e
          exact keyCount_updateFirst tbl now a u e
        · intro r hr hno
          exact mem_updateFirst_of_nomatch tbl now a r hr hno

/-- Witness for C3: two marks of the same (user, message) key from the
empty table leave a single row for that key. -/
theorem mark_as_processed_idempotency_witness :
    keyCount (runMarks [] markCallsW) "u" "m1" ≤ 1 :=
  (mark_as_processed_idempotency markCallsW [rowVm1] 1
      { email_id := "m1", user_id := "v", status := "responded" }
      ⟨rowVm1, by simp, by decide⟩).1 "u" "m1"

/- shape lemmas: every route touches at most the caller's slot of the
pending map -/

lemma processOne_pending_shape (env : ApiEnv) (u : String) (st : ApiState)
    (em : FetchedEmail) :
    (processOne env u st em).1.pending = st.pending ∨
    ∃ x, (processOne env u st em).1.pending = aset st.pending u x := by
  simp only [processOne]
  repeat' split
  all_goals first
    | (left; rfl)
    | (right; exact ⟨_, rfl⟩)

lemma processOne_sent (env : ApiEnv) (u : String) (st : ApiState) (em : FetchedEmail) :
    (processOne env u st em).1.sent = st.sent := by
  simp only [processOne]
  repeat' split
  all_goals rfl

lemma apiApprove_pending_shape (env : ApiEnv) (s : ApiState) (u e : String)
    (req : ApprovalRequest) :
    (apiApprove env s u e req).1.pending = s.pending ∨
    ∃ x, (apiApprove env s u e req).1.pending = aset s.pending u x := by
  simp only [apiApprove]
  repeat' split
  all_goals first
    | (left; rfl)
    | (right; exact ⟨_, rfl⟩)

lemma batchStep_pending_shape (env : ApiEnv) (u : String) (acc : ApiState × List BatchResult)
    (item : ApprovalItem) :
    (batchStep env u acc item).1.pending = acc.1.pending ∨
    ∃ up e2, alookup acc.1.pending u = some up ∧
      (batchStep env u acc item).1.pending = aset acc.1.pending u (aremove up e2) := by
  simp only [batchStep]
  repeat' split
  all_goals first
    | (left; rfl)
    | (right; exact ⟨_, _, by assumption, rfl⟩)

lemma processOne_pending_frame (env : ApiEnv) (u : String) (st : ApiState)
    (em : FetchedEmail) (v : String) (hv : v ≠ u) :
    alookup (processOne env u st em).1.pending v = alookup st.pending v := by
  rcases processOne_pending_shape env u st em with h | ⟨x, h⟩
  · rw [h]
  · rw [h, alookup_aset_ne _ _ _ _ hv]

lemma apiApprove_pending_frame (env : ApiEnv) (s : ApiState) (u e : String)
    (req : ApprovalRequest) (v : String) (hv : v ≠ u) :
    alookup (apiApprove env s u e req).1.pending v = alookup s.pending v := by
  rcases apiApprove_pending_shape env s u e req with h | ⟨x, h⟩
  · rw [h]
  · rw [h, alookup_aset_ne _ _ _ _ hv]

lemma batchStep_pending_frame (env : ApiEnv) (u : String) (acc : ApiState × List BatchResult)
    (item : ApprovalItem) (v : String) (hv : v ≠ u) :
    alookup (batchStep env u acc item).1.pending v = alookup acc.1.pending v := by
  rcases batchStep_pending_shape env u acc item with h | ⟨up, e2, _, h⟩
  · rw [h]
  · rw [h, alookup_aset_ne _ _ _ _ hv]

lemma batchFold_pending_frame (env : ApiEnv) (u v : String) (hv : v ≠ u)
    (items : List ApprovalItem) :
    ∀ acc : ApiState × List BatchResult,
      alookup ((items.foldl (batchStep env u) acc)).1.pending v = alookup acc.1.pending v := by
  induction items with
  | nil => intro acc; rfl
  | cons it rest ih =>
      intro acc
      rw [List.foldl_cons, ih]
      exact batchStep_pending_frame env u acc it v hv

lemma processFold_pending_frame (env : ApiEnv) (u v : String) (hv : v ≠ u)
    (ems : List FetchedEmail) :
    ∀ acc : ApiState × Nat,
      alookup ((ems.foldl (fun acc em =>
          let r := processOne env u acc.1 em
          (r.1, if r.2 then acc.2 + 1 else acc.2)) acc)).1.pending v
        = alookup acc.1.pending v := by
  induction ems with
  | nil => intro acc; rfl
  | cons em rest ih =>
      intro acc
      rw [List.foldl_cons, ih]
      exact processOne_pending_frame env u acc.1 em v hv

lemma apiProcess_pending_frame (env : ApiEnv) (s : ApiState) (u : String)
    (ems : List FetchedEmail) (v : String) (hv : v ≠ u) :
    alookup (apiProcess env s u ems).1.pending v = alookup s.pending v := by
  unfold apiProcess
  cases hsu : alookup s.pending u with
  | none =>
      rw [processFold_pending_frame env u v hv ems]
      exact alookup_aset_ne _ _ _ _ hv
  | some up =>
      rw [processFold_pending_frame env u v hv ems]

/-- C7: pending drafts are isolated per user.  The pending store is
keyed by user and message id, and every API operation invoked as user u
(process, list pending, single approve/reject/edit/save-edit, batch
approve, clear) leaves every other user's slot of the pending map
untouched. -/
theorem pending_isolated_per_user (env : ApiEnv) (s : ApiState) (op : ApiOp)
    (v : String) (hv : v ≠ op.user) :
    alookup (apiStep env s op).1.pending v = alookup s.pending v := by
  cases op with
  | process u ems =>
      exact apiProcess_pending_frame env s u ems v hv
  | listPending u => rfl
  | approve u e req =>
      exact apiApprove_pending_frame env s u e req v hv
  | batchApprove u items =>
      exact batchFold_pending_frame env u v hv items (s, [])
  | clearPending u =>
      exact alookup_aset_ne _ _ _ _ hv

/-- Witness for C7: user v's slot survives user u's clear, approve and
process operations. -/
theorem pending_isolated_per_user_witness :
    alookup (apiStep apiEnvDown stateW (.clearPending "u")).1.pending "v" =
      alookup stateW.pending "v" ∧
    alookup (apiStep apiEnvDown stateW (.approve "u" "m1" approveReq)).1.pending "v" =
      alookup stateW.pending "v" ∧
    alookup (apiStep apiEnvDown stateW (.process "u" [longBodyEm])).1.pending "v" =
      alookup stateW.pending "v" :=
  ⟨pending_isolated_per_user apiEnvDown stateW (.clearPending "u") "v" (by decide),
   pending_isolated_per_user apiEnvDown stateW (.approve "u" "m1" approveReq) "v" (by decide),
   pending_isolated_per_user apiEnvDown stateW (.process "u" [longBodyEm]) "v" (by decide)⟩

lemma mark_ok_of_consistent (tbl : List EmailRow) (now : Nat) (a : MarkArgs)
    (hdb : ∀ r ∈ tbl, r.id = a.email_id → r.user_id = a.user_id) :
    ∃ t, mark_as_processed tbl now a = .ok t ∧
      ∃ r2 ∈ t, r2.id = a.email_id ∧ r2.user_id = a.user_id ∧
        r2.status = a.status ∧ r2.response_sent = a.response_sent := by
  cases hfind : List.find? (rowKeyMatches a) tbl with
  | some r0 =>
      have h2 : List.find? (rowKeyMatches a) (updateFirst tbl now a) =
          some (updateRow r0 now a) := by
        rw [find?_updateFirst, hfind]
        rfl
      have hmatch := (rowKeyMatches_iff a r0).mp (List.find?_some hfind)
      refine ⟨updateFirst tbl now a, by simp [mark_as_processed, hfind],
        updateRow r0 now a, List.mem_of_find?_eq_some h2, ?_, ?_, rfl, rfl⟩
      · exact hmatch.1
      · exact hmatch.2
  | none =>
      have hany : (tbl.any fun r => decide (r.id = a.email_id)) = false := by
        apply Bool.eq_false_iff.mpr
        intro hx
        obtain ⟨r, hr, hid⟩ := List.any_eq_true.mp hx
        have hid2 : r.id = a.email_id := by simpa using hid
        have hkey : rowKeyMatches a r = true :=
          (rowKeyMatches_iff a r).mpr ⟨hid2, hdb r hr hid2⟩
        have hno := List.find?_eq_none.mp hfind r hr
        rw [hkey] at hno
        simp at hno
      refine ⟨tbl ++ [newRow now a], ?_, newRow now a, ?_, rfl, rfl, rfl, rfl⟩
      · simp [mark_as_processed, hfind, hany]
      · simp

/-- C2 (amended): a pending draft is discarded exactly on approval or
rejection, provided the processed-emails write succeeds.  When no other
user owns an `emails` row with this message id (the table's primary key
is the message id alone), a reject call removes the entry and records a
"rejected" row; an approve call whose send succeeds sends the
edited-or-draft text, removes the entry and records a "responded" row
with the sent text; and an approve call whose send fails returns the
500 error and leaves the whole state, in particular the pending entry,
unchanged. -/
theorem pending_discarded_on_decision (env : ApiEnv) (s : ApiState) (u e : String)
    (up : List (String × Pending)) (p : Pending)
    (hu : alookup s.pending u = some up) (hpe : alookup up e = some p)
    (hdb : ∀ r ∈ s.emails, r.id = e → r.user_id = u) :
    (lookupPending (apiApprove env s u e rejectReq).1.pending u e = none ∧
      (apiApprove env s u e rejectReq).2 = .ok "Response rejected" ∧
      ∃ r2 ∈ (apiApprove env s u e rejectReq).1.emails,
        r2.id = e ∧ r2.user_id = u ∧ r2.status = "rejected") ∧
    (env.sendOk e = true →
      lookupPending (apiApprove env s u e approveReq).1.pending u e = none ∧
      (apiApprove env s u e approveReq).2 = .ok "Response sent successfully" ∧
      (apiApprove env s u e approveReq).1.sent =
        SentMail.mk e p.sender ("Re: " ++ p.subject) (responseToSend p) :: s.sent ∧
      ∃ r2 ∈ (apiApprove env s u e approveReq).1.emails,
        r2.id = e ∧ r2.user_id = u ∧ r2.status = "responded" ∧
        r2.response_sent = some (responseToSend p)) ∧
    (env.sendOk e = false →
      apiApprove env s u e approveReq = (s, .httpError 500 "Failed to send email")) := by
  refine ⟨?_, ?_, ?_⟩
  · obtain ⟨tbl, hmark, r2, hr2, hid, huid, hst, hresp⟩ :=
      mark_ok_of_consistent s.emails env.now (rejectMarkArgs u e p) hdb
    have happly : apiApprove env s u e rejectReq =
        ({ s with emails := tbl, pending := aset s.pending u (aremove up e) },
          .ok "Response rejected") := by
      simp only [apiApprove, hu, hpe]
      rw [if_neg (by decide : ¬ rejectReq.action = "approve"),
          if_neg (by decide : ¬ rejectReq.action = "edit"),
          if_neg (by decide : ¬ rejectReq.action = "save_edit"),
          if_pos (by decide : rejectReq.action = "reject"), hmark]
    rw [happly]
    refine ⟨?_, rfl, r2, hr2, hid, huid, hst⟩
    show lookupPending (aset s.pending u (aremove up e)) u e = none
    simp [lookupPending, alookup_aset_self, alookup_aremove_self]
  · intro hsend
    obtain ⟨tbl, hmark, r2, hr2, hid, huid, hst, hresp⟩ :=
      mark_ok_of_consistent s.emails env.now (approveMarkArgs u e p (responseToSend p)) hdb
    have happly : apiApprove env s u e approveReq =
        ({ s with
            emails := tbl
            pending := aset s.pending u (aremove up e)
            sent := SentMail.mk e p.sender ("Re: " ++ p.subject) (responseToSend p) :: s.sent },
          .ok "Response sent successfully") := by
      simp only [apiApprove, hu, hpe]
      rw [if_pos (by decide : approveReq.action = "approve"), if_pos hsend, hmark]
    rw [happly]
    refine ⟨?_, rfl, rfl, r2, hr2, hid, huid, hst, hresp⟩
    show lookupPending (aset s.pending u (aremove up e)) u e = none
    simp [lookupPending, alookup_aset_self, alookup_aremove_self]
  · intro hsend
    simp only [apiApprove, hu, hpe]
    rw [if_pos (by decide : approveReq.action = "approve"),
        if_neg (by rw [hsend]; exact Bool.false_ne_true)]

/-- C2 counterexample: the claim as stated fails when another user
already owns the `emails` row whose primary key equals the pending
message id.  The send succeeds (the reply is in the outbox), but the
database insert violates the primary key, `mark_as_processed` raises,
the route answers 500, and the entry is NOT removed from the pending
map. -/
theorem pending_discarded_on_decision_cex :
    lookupPending stateConflict.pending "u" "m1" = some pendingW ∧
    apiEnvDown.sendOk "m1" = true ∧
    (apiApprove apiEnvDown stateConflict "u" "m1" approveReq).1.sent =
      [SentMail.mk "m1" "alice@example.com" "Re: Hello" "the draft"] ∧
    (apiApprove apiEnvDown stateConflict "u" "m1" approveReq).2 =
      .httpError 500 "duplicate key value violates unique constraint on emails.id" ∧
    lookupPending (apiApprove apiEnvDown stateConflict "u" "m1" approveReq).1.pending
      "u" "m1" = some pendingW := by
  refine ⟨rfl, rfl, ?_, ?_, ?_⟩ <;> rfl

/-- Witness for the amended C2: with an empty `emails` table a
successful approve removes the pending entry. -/
theorem pending_discarded_on_decision_witness :
    lookupPending (apiApprove apiEnvDown stateW "u" "m1" approveReq).1.pending "u" "m1" =
      none ∧
    (apiApprove apiEnvDown stateW "u" "m1" rejectReq).2 = .ok "Response rejected" :=
  ⟨((pending_discarded_on_decision apiEnvDown stateW "u" "m1" [("m1", pendingW)] pendingW
        rfl rfl (by intro r hr; exact absurd hr (List.not_mem_nil r))).2.1 rfl).1,
   ((pending_discarded_on_decision apiEnvDown stateW "u" "m1" [("m1", pendingW)] pendingW
        rfl rfl (by intro r hr; exact absurd hr (List.not_mem_nil r))).1).2.1⟩

/-- C9: batch approval ignores saved edits.  After a `save_edit` stores
text t on a pending entry, `batch_approve` with an "approve" item for
that entry hands the original `draft_response` to the Gmail client,
whereas a single `approve_response` with action "approve" hands the
saved `edited_response` t to the client. -/
theorem batch_ignores_saved_edits (env : ApiEnv) (s : ApiState) (u e : String)
    (up : List (String × Pending)) (p : Pending) (t : String)
    (hu : alookup s.pending u = some up) (hpe : alookup up e = some p)
    (ht : ¬ t = "") (hsend : env.sendOk e = true) :
    lookupPending (apiApprove env s u e (saveEditReq t)).1.pending u e =
      some { p with edited_response := some t } ∧
    (apiBatch env (apiApprove env s u e (saveEditReq t)).1 u [⟨e, "approve"⟩]).1.sent =
      SentMail.mk e p.sender ("Re: " ++ p.subject) p.draft_response
        :: (apiApprove env s u e (saveEditReq t)).1.sent ∧
    (apiApprove env (apiApprove env s u e (saveEditReq t)).1 u e approveReq).1.sent =
      SentMail.mk e p.sender ("Re: " ++ p.subject) t
        :: (apiApprove env s u e (saveEditReq t)).1.sent := by
  have hs1 : apiApprove env s u e (saveEditReq t) =
      ({ s with pending := aset s.pending u (aset up e { p with edited_response := some t }) },
        .okSaved t) := by
    simp only [apiApprove, hu, hpe]
    rw [if_neg (show ¬ (saveEditReq t).action = "approve" by show ¬ "save_edit" = "approve"; decide),
        if_neg (show ¬ (saveEditReq t).action = "edit" by show ¬ "save_edit" = "edit"; decide),
        if_pos (show (saveEditReq t).action = "save_edit" from rfl)]
    simp only [saveEditReq]
    rw [if_neg ht]
  refine ⟨?_, ?_, ?_⟩
  · rw [hs1]
    show lookupPending (aset s.pending u (aset up e { p with edited_response := some t })) u e
      = some { p with edited_response := some t }
    simp [lookupPending, alookup_aset_self]
  · rw [hs1]
    show (apiBatch env _ u [⟨e, "approve"⟩]).1.sent = _
    unfold apiBatch
    rw [List.foldl_cons, List.foldl_nil]
    simp only [batchStep, alookup_aset_self]
    cases hmark : mark_as_processed s.emails env.now
        (approveMarkArgs u e { p with edited_response := some t }
          ({ p with edited_response := some t } : Pending).draft_response) with
    | ok tbl => simp [hsend, hmark]
    | error msg => simp [hsend, hmark]
  · rw [hs1]
    show (apiApprove env
        ({ s with pending := aset s.pending u (aset up e { p with edited_response := some t }) })
        u e approveReq).1.sent = _
    simp only [apiApprove, alookup_aset_self]
    rw [if_pos (by decide : approveReq.action = "approve"), if_pos hsend]
    have hresp : responseToSend { p with edited_response := some t } = t := by
      simp [responseToSend, ht]
    rw [hresp]
    cases hmark : mark_as_processed s.emails env.now
        (approveMarkArgs u e { p with edited_response := some t } t) with
    | ok tbl => simp [hmark]
    | error msg => simp [hmark]

/-- Witness for C9: after saving the edit "my edit" on the single
pending entry, the batch path sends "the draft" while the single
approve path sends "my edit". -/
theorem batch_ignores_saved_edits_witness :
    (apiBatch apiEnvDown (apiApprove apiEnvDown stateW "u" "m1" (saveEditReq "my edit")).1 "u"
        [⟨"m1", "approve"⟩]).1.sent =
      SentMail.mk "m1" "alice@example.com" "Re: Hello" "the draft"
        :: (apiApprove apiEnvDown stateW "u" "m1" (saveEditReq "my edit")).1.sent ∧
    (apiApprove apiEnvDown (apiApprove apiEnvDown stateW "u" "m1" (saveEditReq "my edit")).1
        "u" "m1" approveReq).1.sent =
      SentMail.mk "m1" "alice@example.com" "Re: Hello" "my edit"
        :: (apiApprove apiEnvDown stateW "u" "m1" (saveEditReq "my edit")).1.sent :=
  ⟨(batch_ignores_saved_edits apiEnvDown stateW "u" "m1" [("m1", pendingW)] pendingW "my edit"
      rfl rfl (by decide) rfl).2.1,
   (batch_ignores_saved_edits apiEnvDown stateW "u" "m1" [("m1", pendingW)] pendingW "my edit"
      rfl rfl (by decide) rfl).2.2⟩

/- workflow characterization lemmas -/

lemma wfAnalyze_analysis (env : WfEnv) (st : WfState) :
    ∃ a, (wfAnalyze env st).1.analysis = some a := by
  cases henv : env.analyze ⟨st.subject, st.sender, truncateBodyWorkflow st.body, st.thread_id⟩ with
  | error e => exact ⟨defaultAnalysis, by simp [wfAnalyze, henv]⟩
  | ok a => exact ⟨a, by simp [wfAnalyze, henv]⟩

lemma wfDecide_ok_parts (env : WfEnv) (st st2 : WfState) (h : wfDecide env st = .ok st2) :
    ∃ a d, st.analysis = some a ∧
      decide_action env.decideOracle a st.subject st.sender = .ok d ∧
      st2 = { st with decision := some d } := by
  cases ha : st.analysis with
  | none =>
      simp only [wfDecide, ha] at h
      exact Except.noConfusion h
  | some a =>
      cases hd : decide_action env.decideOracle a st.subject st.sender with
      | error e =>
          simp only [wfDecide, ha, hd] at h
          exact Except.noConfusion h
      | ok d =>
          simp only [wfDecide, ha, hd, Except.ok.injEq] at h
          exact ⟨a, d, rfl, hd, h.symm⟩

lemma wfGenerate_some (env : WfEnv) (st : WfState) (a : EmailAnalysis)
    (h : st.analysis = some a) :
    wfGenerate env st =
      ({ st with
          response := some (generate_response env.gen st.subject st.sender st.body a)
          approval_status := "pending" },
        [.generated (generate_response env.gen st.subject st.sender st.body a)]) := by
  unfold wfGenerate
  rw [h]

lemma wfSend_state (env : WfEnv) (st : WfState) : (wfSend env st).1 = st := by
  unfold wfSend
  repeat' split
  all_goals rfl

lemma checkApprovalRoute_ok_vals (status route : String)
    (h : checkApprovalRoute status = .ok route) :
    route = "send_response" ∨ route = "skip" := by
  unfold checkApprovalRoute at h
  by_cases h1 : status = "approved" ∨ status = "auto"
  · rw [if_pos h1] at h
    injection h with h2
    exact Or.inl h2.symm
  · rw [if_neg h1] at h
    by_cases h2 : status = "rejected"
    · rw [if_pos h2] at h
      injection h with h3
      exact Or.inr h3.symm
    · rw [if_neg h2] at h
      cases h

lemma checkApprovalRoute_send_status (status : String)
    (h : checkApprovalRoute status = .ok "send_response") :
    (status = "approved" ∨ status = "auto") ∧ status ≠ "pending" := by
  unfold checkApprovalRoute at h
  by_cases h1 : status = "approved" ∨ status = "auto"
  · refine ⟨h1, ?_⟩
    rcases h1 with h1 | h1 <;> rw [h1] <;> decide
  · rw [if_neg h1] at h
    by_cases h2 : status = "rejected"
    · rw [if_pos h2] at h
      injection h with h3
      exact absurd h3 (by decide)
    · rw [if_neg h2] at h
      cases h

lemma runWorkflow_decide_error (env : WfEnv) (init : WfState) (msg : String)
    (h : wfDecide env (wfAnalyze env init).1 = .error msg) :
    runWorkflow env init = (.errored msg, (wfAnalyze env init).2) := by
  simp [runWorkflow, h]

lemma runWorkflow_skip_char (env : WfEnv) (init st2 : WfState) (d : EmailDecision)
    (hdec : wfDecide env (wfAnalyze env init).1 = .ok st2)
    (hd : st2.decision = some d) (hact : d.action = .skip) :
    runWorkflow env init = (.finished st2, (wfAnalyze env init).2 ++ [.dbMarked "skipped"]) := by
  have hsr : should_respond d = "skip" := by simp [should_respond, hact]
  simp [runWorkflow, hdec, hd, hsr, wfSkip]

lemma runWorkflow_respond_char (env : WfEnv) (init st2 g1 : WfState)
    (d : EmailDecision) (R : EmailResponse)
    (hdec : wfDecide env (wfAnalyze env init).1 = .ok st2)
    (hd : st2.decision = some d) (hact : d.action = .respond)
    (hgen : wfGenerate env st2 = (g1, [.generated R])) :
    (wfRequestApproval env g1 = none ∧
      runWorkflow env init = (.blocked, (wfAnalyze env init).2 ++ [.generated R])) ∨
    (∃ st4, wfRequestApproval env g1 = some st4 ∧
      ((∃ msg, checkApprovalRoute st4.approval_status = .error msg ∧
          runWorkflow env init = (.errored msg, (wfAnalyze env init).2 ++ [.generated R])) ∨
       (checkApprovalRoute st4.approval_status = .ok "send_response" ∧
          runWorkflow env init =
            (.finished st4,
              (wfAnalyze env init).2 ++ [.generated R] ++ (wfSend env st4).2)) ∨
       (checkApprovalRoute st4.approval_status = .ok "skip" ∧
          runWorkflow env init =
            (.finished st4,
              (wfAnalyze env init).2 ++ [.generated R] ++ [.dbMarked "skipped"])))) := by
  have hsr : should_respond d = "respond" := by simp [should_respond, hact]
  cases happ : wfRequestApproval env g1 with
  | none =>
      left
      exact ⟨rfl, by simp [runWorkflow, hdec, hd, hsr, hgen, happ]⟩
  | some st4 =>
      right
      refine ⟨st4, rfl, ?_⟩
      cases hroute : checkApprovalRoute st4.approval_status with
      | error msg =>
          exact Or.inl ⟨msg, rfl, by simp [runWorkflow, hdec, hd, hsr, hgen, happ, hroute]⟩
      | ok route =>
          rcases checkApprovalRoute_ok_vals st4.approval_status route hroute with hv | hv
          · subst hv
            refine Or.inr (Or.inl ⟨rfl, ?_⟩)
            have hst := wfSend_state env st4
            simp [runWorkflow, hdec, hd, hsr, hgen, happ, hroute, hst]
          · subst hv
            refine Or.inr (Or.inr ⟨rfl, ?_⟩)
            simp [runWorkflow, hdec, hd, hsr, hgen, happ, hroute, wfSkip]

/-- C6: the workflow follows analyze → decide → generate → approve →
send/skip.  After the decide step the generate node runs if and only if
the decision's action is "respond"; for the only other action, "skip",
the email goes straight to the skip node, which records status
"skipped" without generating or sending a reply. -/
theorem workflow_respond_skip_routing (env : WfEnv) (init st2 : WfState)
    (d : EmailDecision)
    (hdec : wfDecide env (wfAnalyze env init).1 = .ok st2)
    (hd : st2.decision = some d) :
    ((∃ r, WfEvent.generated r ∈ (runWorkflow env init).2) ↔ d.action = .respond) ∧
    (d.action = .skip →
      (runWorkflow env init).1 = .finished st2 ∧
      (runWorkflow env init).2 =
        [.analyzeCalled
            ⟨init.subject, init.sender, truncateBodyWorkflow init.body, init.thread_id⟩,
          .dbMarked "skipped"] ∧
      (∀ rcp subj b th,
        WfEvent.sendAttempted rcp subj b th ∉ (runWorkflow env init).2)) := by
  obtain ⟨a0, d0, ha0, hd0, hst2⟩ := wfDecide_ok_parts env _ st2 hdec
  have hdd : d0 = d := by
    rw [hst2] at hd
    simpa using hd
  subst hdd
  have hana2 : st2.analysis = (wfAnalyze env init).1.analysis := by rw [hst2]
  obtain ⟨a1, ha1⟩ := wfAnalyze_analysis env init
  have hana3 : st2.analysis = some a1 := by rw [hana2, ha1]
  cases hact : d0.action with
  | skip =>
      have hrun := runWorkflow_skip_char env init st2 d0 hdec hd hact
      constructor
      · constructor
        · rintro ⟨r, hr⟩
          rw [hrun] at hr
          simp only at hr
          rw [wfAnalyze_events] at hr
          simp at hr
        · intro hresp
          exact absurd hresp (by decide)
      · intro _
        rw [hrun]
        refine ⟨rfl, ?_, ?_⟩
        · rw [wfAnalyze_events]
          rfl
        · intro rcp subj b th hmem
          simp only at hmem
          rw [wfAnalyze_events] at hmem
          simp at hmem
  | respond =>
      have hgen := wfGenerate_some env st2 a1 hana3
      have hchar := runWorkflow_respond_char env init st2 _ d0
        (generate_response env.gen st2.subject st2.sender st2.body a1) hdec hd hact hgen
      constructor
      · constructor
        · intro _
          rfl
        · intro _
          refine ⟨generate_response env.gen st2.subject st2.sender st2.body a1, ?_⟩
          rcases hchar with ⟨_, hrun⟩ | ⟨st4, _, ⟨msg, _, hrun⟩ | ⟨_, hrun⟩ | ⟨_, hrun⟩⟩ <;>
            rw [hrun] <;> simp
      · intro hskip
        exact absurd hskip (by decide)

/-- Witness for C6: a decision oracle answering "skip" routes the
email to the skip node, with exactly the analyze event and the
"skipped" database record. -/
theorem workflow_respond_skip_routing_witness :
    (runWorkflow wfEnvSkip wfStateShort).1 = .finished wfSt2Skip ∧
    (runWorkflow wfEnvSkip wfStateShort).2 =
      [.analyzeCalled ⟨"Short", "carol@example.com", "hi", none⟩, .dbMarked "skipped"] :=
  ⟨((workflow_respond_skip_routing wfEnvSkip wfStateShort wfSt2Skip
      ⟨.skip, "marketing"⟩ rfl rfl).2 rfl).1,
   ((workflow_respond_skip_routing wfEnvSkip wfStateShort wfSt2Skip
      ⟨.skip, "marketing"⟩ rfl rfl).2 rfl).2.1⟩

/- sent-mail characterization lemmas -/

lemma processFold_sent (env : ApiEnv) (u : String) (ems : List FetchedEmail) :
    ∀ acc : ApiState × Nat,
      ((ems.foldl (fun acc em =>
          let r := processOne env u acc.1 em
          (r.1, if r.2 then acc.2 + 1 else acc.2)) acc)).1.sent = acc.1.sent := by
  induction ems with
  | nil => intro acc; rfl
  | cons em rest ih =>
      intro acc
      rw [List.foldl_cons, ih]
      exact processOne_sent env u acc.1 em

lemma apiProcess_sent (env : ApiEnv) (s : ApiState) (u : String)
    (ems : List FetchedEmail) : (apiProcess env s u ems).1.sent = s.sent := by
  unfold apiProcess
  cases hsu : alookup s.pending u with
  | none =>
      rw [processFold_sent]
  | some up =>
      rw [processFold_sent]

lemma apiApprove_sent_char (env : ApiEnv) (s : ApiState) (u e : String)
    (req : ApprovalRequest) :
    (apiApprove env s u e req).1.sent = s.sent ∨
    ∃ p b, lookupPending s.pending u e = some p ∧
      (req.action = "approve" ∨
        (req.action = "edit" ∧ ∃ t, req.edited_response = some t ∧ ¬ t = "")) ∧
      (apiApprove env s u e req).1.sent =
        SentMail.mk e p.sender ("Re: " ++ p.subject) b :: s.sent := by
  cases hsu : alookup s.pending u with
  | none => left; simp [apiApprove, hsu]
  | some up =>
      cases hue : alookup up e with
      | none => left; simp [apiApprove, hsu, hue]
      | some p =>
          have hlp : lookupPending s.pending u e = some p := by
            simp [lookupPending, hsu, hue]
          by_cases h1 : req.action = "approve"
          · by_cases hs2 : env.sendOk e = true
            · cases hmark : mark_as_processed s.emails env.now
                  (approveMarkArgs u e p (responseToSend p)) with
              | ok tbl =>
                  right
                  exact ⟨p, responseToSend p, hlp, Or.inl h1,
                    by simp [apiApprove, hsu, hue, h1, hs2, hmark]⟩
              | error msg =>
                  right
                  exact ⟨p, responseToSend p, hlp, Or.inl h1,
                    by simp [apiApprove, hsu, hue, h1, hs2, hmark]⟩
            · left
              simp [apiApprove, hsu, hue, h1, hs2]
          · by_cases h2 : req.action = "edit"
            · cases hedit : req.edited_response with
              | none => left; simp [apiApprove, hsu, hue, h1, h2, hedit]
              | some t =>
                  by_cases ht : t = ""
                  · left; simp [apiApprove, hsu, hue, h1, h2, hedit, ht]
                  · by_cases hs2 : env.sendOk e = true
                    · cases hmark : mark_as_processed s.emails env.now
                          (approveMarkArgs u e p t) with
                      | ok tbl =>
                          right
                          exact ⟨p, t, hlp, Or.inr ⟨h2, t, rfl, ht⟩,
                            by simp [apiApprove, hsu, hue, h1, h2, hedit, ht, hs2, hmark]⟩
                      | error msg =>
                          right
                          exact ⟨p, t, hlp, Or.inr ⟨h2, t, rfl, ht⟩,
                            by simp [apiApprove, hsu, hue, h1, h2, hedit, ht, hs2, hmark]⟩
                    · left
                      simp [apiApprove, hsu, hue, h1, h2, hedit, ht, hs2]
            · by_cases h3 : req.action = "save_edit"
              · cases hedit : req.edited_response with
                | none => left; simp [apiApprove, hsu, hue, h1, h2, h3, hedit]
                | some t =>
                    by_cases ht : t = ""
                    · left; simp [apiApprove, hsu, hue, h1, h2, h3, hedit, ht]
                    · left; simp [apiApprove, hsu, hue, h1, h2, h3, hedit, ht]
              · by_cases h4 : req.action = "reject"
                · cases hmark : mark_as_processed s.emails env.now (rejectMarkArgs u e p) with
                  | ok tbl => left; simp [apiApprove, hsu, hue, h1, h2, h3, h4, hmark]
                  | error msg => left; simp [apiApprove, hsu, hue, h1, h2, h3, h4, hmark]
                · left
                  simp [apiApprove, hsu, hue, h1, h2, h3, h4]

lemma batchStep_sent_char (env : ApiEnv) (u : String)
    (acc : ApiState × List BatchResult) (item : ApprovalItem) :
    (batchStep env u acc item).1.sent = acc.1.sent ∨
    ∃ p, lookupPending acc.1.pending u item.email_id = some p ∧
      item.action = "approve" ∧
      (batchStep env u acc item).1.sent =
        SentMail.mk item.email_id p.sender ("Re: " ++ p.subject) p.draft_response
          :: acc.1.sent := by
  cases hsu : alookup acc.1.pending u with
  | none => left; simp [batchStep, hsu]
  | some up =>
      cases hue : alookup up item.email_id with
      | none => left; simp [batchStep, hsu, hue]
      | some p =>
          have hlp : lookupPending acc.1.pending u item.email_id = some p := by
            simp [lookupPending, hsu, hue]
          by_cases h1 : item.action = "approve"
          · by_cases hs2 : env.sendOk item.email_id = true
            · cases hmark : mark_as_processed acc.1.emails env.now
                  (approveMarkArgs u item.email_id p p.draft_response) with
              | ok tbl =>
                  right
                  exact ⟨p, hlp, h1, by simp [batchStep, hsu, hue, h1, hs2, hmark]⟩
              | error msg =>
                  right
                  exact ⟨p, hlp, h1, by simp [batchStep, hsu, hue, h1, hs2, hmark]⟩
            · left; simp [batchStep, hsu, hue, h1, hs2]
          · by_cases h2 : item.action = "reject"
            · cases hmark : mark_as_processed acc.1.emails env.now
                  (rejectMarkArgs u item.email_id p) with
              | ok tbl => left; simp [batchStep, hsu, hue, h1, h2, hmark]
              | error msg => left; simp [batchStep, hsu, hue, h1, h2, hmark]
            · left; simp [batchStep, hsu, hue, h1, h2]

lemma batchStep_pending_mono (env : ApiEnv) (u : String)
    (acc : ApiState × List BatchResult) (item : ApprovalItem) (x : String)
    (h : (lookupPending (batchStep env u acc item).1.pending u x).isSome) :
    (lookupPending acc.1.pending u x).isSome := by
  rcases batchStep_pending_shape env u acc item with hp | ⟨up, e2, hup, hp⟩
  · rwa [hp] at h
  · rw [hp] at h
    simp only [lookupPending, alookup_aset_self] at h
    by_cases hx : x = e2
    · rw [hx, alookup_aremove_self] at h
      simp at h
    · rw [alookup_aremove_ne up e2 x hx] at h
      simp only [lookupPending, hup]
      exact h

lemma batchFold_sent (env : ApiEnv) (u : String) (items : List ApprovalItem) :
    ∀ (acc : ApiState × List BatchResult) (m : SentMail),
      m ∈ ((items.foldl (batchStep env u) acc)).1.sent →
      m ∈ acc.1.sent ∨
        ((lookupPending acc.1.pending u m.email_id).isSome ∧
          ApprovalItem.mk m.email_id "approve" ∈ items) := by
  induction items with
  | nil =>
      intro acc m hm
      exact Or.inl hm
  | cons it rest ih =>
      intro acc m hm
      rw [List.foldl_cons] at hm
      rcases ih (batchStep env u acc it) m hm with hm2 | ⟨hsome, hmem⟩
      · rcases batchStep_sent_char env u acc it with hs | ⟨p, hlp, hact, hs⟩
        · rw [hs] at hm2
          exact Or.inl hm2
        · rw [hs] at hm2
          rcases List.mem_cons.mp hm2 with heq | hm3
          · right
            constructor
            · rw [heq]
              simp [hlp]
            · rw [heq]
              have hit : ApprovalItem.mk it.email_id "approve" = it := by
                obtain ⟨ie, ia⟩ := it
                simp only at hact
                rw [hact]
              simp only
              rw [hit]
              exact List.mem_cons_self it rest
          · exact Or.inl hm3
      · exact Or.inr
          ⟨batchStep_pending_mono env u acc it m.email_id hsome,
            List.mem_cons_of_mem it hmem⟩

/-- C1: every drafted reply goes through the approval step before
sending.  On the HTTP API, any request that enlarges the outbox is
either `approve_response` with action "approve" (or "edit" with
non-empty text) on an entry that is pending for the caller, or
`batch_approve` with an "approve" item for such an entry; processing,
listing and clearing never send.  In the workflow, a send attempt
happens only in runs that pass `check_approval` with status "approved"
or "auto", never for a draft still in "pending" state. -/
theorem reply_only_after_approval (env : ApiEnv) (s : ApiState) (op : ApiOp)
    (wenv : WfEnv) (winit : WfState) :
    (∀ m, m ∈ (apiStep env s op).1.sent → m ∈ s.sent ∨ sendJustified s op m) ∧
    (∀ rcp subj body th,
      WfEvent.sendAttempted rcp subj body th ∈ (runWorkflow wenv winit).2 →
      ∃ stf, (runWorkflow wenv winit).1 = .finished stf ∧
        (stf.approval_status = "approved" ∨ stf.approval_status = "auto") ∧
        stf.approval_status ≠ "pending") := by
  constructor
  · intro m hm
    cases op with
    | process u ems =>
        left
        have hstep : (apiStep env s (ApiOp.process u ems)).1.sent =
            (apiProcess env s u ems).1.sent := rfl
        rw [hstep, apiProcess_sent] at hm
        exact hm
    | listPending u => exact Or.inl hm
    | approve u e req =>
        have hstep : (apiStep env s (ApiOp.approve u e req)).1 =
            (apiApprove env s u e req).1 := rfl
        rw [hstep] at hm
        rcases apiApprove_sent_char env s u e req with hs | ⟨p, b, hlp, hact, hs⟩
        · rw [hs] at hm
          exact Or.inl hm
        · rw [hs] at hm
          rcases List.mem_cons.mp hm with heq | hm2
          · right
            left
            refine ⟨u, e, req, rfl, ?_, ?_, hact⟩
            · rw [heq]
            · rw [hlp]
              rfl
          · exact Or.inl hm2
    | batchApprove u items =>
        have hstep : (apiStep env s (ApiOp.batchApprove u items)).1 =
            (apiBatch env s u items).1 := rfl
        rw [hstep] at hm
        rcases batchFold_sent env u items (s, []) m hm with h | ⟨hsome, hmem⟩
        · exact Or.inl h
        · exact Or.inr (Or.inr ⟨u, items, rfl, hsome, hmem⟩)
    | clearPending u => exact Or.inl hm
  · intro rcp subj body th hmem
    cases hdec0 : wfDecide wenv (wfAnalyze wenv winit).1 with
    | error msg =>
        rw [runWorkflow_decide_error wenv winit msg hdec0] at hmem
        simp only at hmem
        rw [wfAnalyze_events] at hmem
        simp at hmem
    | ok st2 =>
        obtain ⟨a0, d0, ha0, hd0, hst2⟩ := wfDecide_ok_parts wenv _ st2 hdec0
        have hd : st2.decision = some d0 := by rw [hst2]
        obtain ⟨a1, ha1⟩ := wfAnalyze_analysis wenv winit
        have hana3 : st2.analysis = some a1 := by
          rw [hst2]
          exact ha1
        cases hact : d0.action with
        | skip =>
            rw [runWorkflow_skip_char wenv winit st2 d0 hdec0 hd hact] at hmem
            simp only at hmem
            rw [wfAnalyze_events] at hmem
            simp at hmem
        | respond =>
            have hgen := wfGenerate_some wenv st2 a1 hana3
            rcases runWorkflow_respond_char wenv winit st2 _ d0 _ hdec0 hd hact hgen with
              ⟨_, hrun⟩ | ⟨st4, _, ⟨msg, _, hrun⟩ | ⟨hroute, hrun⟩ | ⟨_, hrun⟩⟩
            · rw [hrun] at hmem
              simp only at hmem
              rw [wfAnalyze_events] at hmem
              simp at hmem
            · rw [hrun] at hmem
              simp only at hmem
              rw [wfAnalyze_events] at hmem
              simp at hmem
            · refine ⟨st4, by rw [hrun], ?_, ?_⟩
              · exact (checkApprovalRoute_send_status _ hroute).1
              · exact (checkApprovalRoute_send_status _ hroute).2
            · rw [hrun] at hmem
              simp only at hmem
              rw [wfAnalyze_events] at hmem
              simp at hmem

/-- Witness for C1: an approve request on a pending entry justifies the
one mail it adds to the outbox, and the interactive workflow run that
sends did pass the approval step with status "approved". -/
theorem reply_only_after_approval_witness :
    ((SentMail.mk "m1" "alice@example.com" "Re: Hello" "the draft") ∈ stateW.sent ∨
      sendJustified stateW (.approve "u" "m1" approveReq)
        (SentMail.mk "m1" "alice@example.com" "Re: Hello" "the draft")) ∧
    (∃ stf, (runWorkflow wfEnvYes wfStateShort).1 = .finished stf ∧
      (stf.approval_status = "approved" ∨ stf.approval_status = "auto") ∧
      stf.approval_status ≠ "pending") :=
  ⟨(reply_only_after_approval apiEnvDown stateW (.approve "u" "m1" approveReq)
      wfEnvYes wfStateShort).1
      (SentMail.mk "m1" "alice@example.com" "Re: Hello" "the draft") (by decide),
   (reply_only_after_approval apiEnvDown stateW (.approve "u" "m1" approveReq)
      wfEnvYes wfStateShort).2
      "carol@example.com" "Re: Short" (fallbackResponse "Short").response_body none
      (by decide)⟩

end EmailAutomation
